import Mathlib

/-!
Verification development for the workflow execution engine of the
automacro repository (src/automacro/workflow/).

The engine is embedded shallowly:

* `WorkflowState` mirrors `state.py`.
* `WTask` models a `WorkflowTask` (task.py): its behaviour is given by a
  `script`, the finite sequence of outcomes of its successive `step` calls
  (a step may return normally after writing context entries, raise the
  `TaskInterrupted` sentinel, call `stop()` on its own task, or raise an
  arbitrary exception).  `condNext` models `ConditionalTask.next_task_idx`
  as it stands after the task has executed (conditional.py).
* `EState` holds the engine-owned mutable fields of `Workflow`
  (workflow.py): `_state`, `_current_task_idx`, `_extern_req` (here
  `ext_req`), `_in_hook`, `_context`, plus `task_mid_run`, the position of
  the current task's stop flag (`not task._stop_event.is_set()`).
* Hook invocations are recorded as events (`Ev`); hook bodies are the
  default no-ops of hooks.py.  Warning and exception logging is recorded
  as `LogEv`; informational logs are not modelled.
* The monotonic clock is abstracted to presence (`task_started_at : Bool`),
  run ids and workflow names are dropped from the context metadata.
* Threading: all engine code runs under one reentrant lock, so external
  control calls can only interleave while the lock is free, i.e. while
  `task.run` executes.  The driver `Workflow.runLoop` therefore takes a
  schedule assigning to each cycle at most one external control call that
  arrives during that cycle's `task.run`.
-/

/-- The four workflow states of `WorkflowState` (state.py). -/
inductive WorkflowState
  | IDLE
  | RUNNING
  | PAUSED
  | STOPPING
deriving DecidableEq, Repr

/-- The `persistent` / `transient` mappings of `WorkflowContext`
(context.py), modelled as association lists (later entries shadow). -/
abbrev KV := List (String × Nat)

/-- One outcome of a `WorkflowTask.step` call (task.py):
return normally after writing the given transient / persistent entries,
raise `TaskInterrupted`, call `self.stop()` and return, or raise an
arbitrary exception. -/
inductive StepAct
  | stepOk (tw pw : KV)
  | interrupt
  | stopSelf
  | fail
deriving DecidableEq, Repr

/-- How a task script terminates: `TaskInterrupted` raised, `stop()`
called from inside `step`, an arbitrary exception raised, or the script
exhausted (which models the stop flag being signalled externally exactly
then). -/
inductive TermKind
  | interruptT
  | stopSelfT
  | failT
  | exhaustedT
deriving DecidableEq, Repr

/-- Terminator of a script: steps before it return normally. -/
def scriptTerm : List StepAct → TermKind
  | [] => .exhaustedT
  | .stepOk _ _ :: r => scriptTerm r
  | .interrupt :: _ => .interruptT
  | .stopSelf :: _ => .stopSelfT
  | .fail :: _ => .failT

/-- Transient-map entries written by the normally-returning steps of a
script, in order. -/
def scriptTW : List StepAct → KV
  | .stepOk tw _ :: r => tw ++ scriptTW r
  | _ => []

/-- Persistent-map entries written by the normally-returning steps of a
script, in order. -/
def scriptPW : List StepAct → KV
  | .stepOk _ pw :: r => pw ++ scriptPW r
  | _ => []

/-- Model of a `WorkflowTask` as the driver sees it.  `condNext = some d`
states that the task is a `ConditionalTask` whose `next_task_idx` equals
`d` after its single evaluation step (conditional.py, `ConditionalTask.step`);
`none` covers plain tasks and conditionals that resolved to `None`. -/
structure WTask where
  name : String
  script : List StepAct
  condNext : Option Int
deriving DecidableEq, Repr

/-- A `NoOpTask` (task.py): `step` raises `TaskInterrupted` immediately. -/
def noOpTask (n : String) : WTask := ⟨n, [.interrupt], none⟩

/-- `Workflow._is_valid_task_index` (workflow.py:228): Python-style
index validity, `-len(tasks) <= index < len(tasks)`. -/
def isValidTaskIndex (n : Nat) (i : Int) : Bool :=
  -(n : Int) ≤ i ∧ i < (n : Int)

/-- Normalisation of a Python index to its non-negative form. -/
def normIdx (n : Nat) (i : Int) : Int :=
  if i < 0 then i + (n : Int) else i

/-- Python sequence indexing `tasks[i]` with negative-index wrapping;
`none` models an `IndexError`. -/
def pyGet (ts : List WTask) (i : Int) : Option WTask :=
  if h : 0 ≤ i ∧ i < (ts.length : Int) then some (ts.get ⟨i.toNat, by omega⟩)
  else if h2 : -(ts.length : Int) ≤ i ∧ i < 0 then
    some (ts.get ⟨(i + ts.length).toNat, by omega⟩)
  else none

/-- `WorkflowRuntime` (context.py:19): per-run counters and pointers.
`task_started_at` keeps only whether the timestamp is set. -/
structure WorkflowRuntime where
  current_task_idx : Option Int
  prev_task_idx : Option Int
  iteration : Nat
  tasks_executed : Nat
  task_started_at : Bool
deriving DecidableEq, Repr

/-- The runtime of a freshly created `WorkflowContext` (dataclass
defaults of context.py). -/
def WorkflowRuntime.start : WorkflowRuntime := ⟨some 0, none, 0, 0, false⟩

/-- `WorkflowContext` (context.py:34) without the immutable metadata. -/
structure WorkflowContext where
  runtime : WorkflowRuntime
  persistent : KV
  transient : KV
deriving DecidableEq, Repr

/-- A freshly initialised context (`Workflow._init_context`,
workflow.py:241). -/
def freshContext : WorkflowContext := ⟨WorkflowRuntime.start, [], []⟩

/-- Engine-owned mutable state of a `Workflow` (workflow.py:29-67).
`task_mid_run` is true while the current task's stop flag is in the
running position (`task.is_running()`). -/
structure EState where
  state : WorkflowState
  current_task_idx : Int
  ext_req : Bool
  in_hook : Bool
  context : Option WorkflowContext
  task_mid_run : Bool
deriving DecidableEq, Repr

/-- A freshly constructed workflow (constructor, workflow.py:29). -/
def idleWorkflow : EState := ⟨.IDLE, 0, false, false, none, false⟩

/-- Errors the engine can raise or log. -/
inductive ErrKind
  | invalidTaskJump (idx : Int)
  | invalidConditionalIndex (taskName : String) (idx : Int)
  | taskFailure (taskName : String)
  | attributeMissing (attr : String)
  | indexError
  | runtimeError
deriving DecidableEq, Repr

/-- Hook invocations, recorded in the order they are fired.  `taskStart`
carries the snapshot its `TaskContext` exposes: iteration, current index,
transient and persistent maps.  `wfEnd` carries the `tasks_executed` and
`iteration` counters its `HookContext` exposes. -/
inductive Ev
  | wfStart
  | wfEnd (tasks_executed iteration : Nat)
  | iterStart (i : Nat)
  | iterEnd (i : Nat)
  | taskStart (name : String) (iteration : Nat) (idx : Int) (transient persistent : KV)
  | taskEnd (name : String)
  | taskChange (prev curr : Option String)
  | pausedEv
  | resumedEv
deriving DecidableEq, Repr

/-- Warning and exception log records (informational logs are not
modelled). -/
inductive LogEv
  | warn (what : String)
  | exceptionLog (e : ErrKind)
deriving DecidableEq, Repr

/-- Result of one engine operation: the state after it, the hooks it
fired, the warnings/exceptions it logged, and the exception it raised
(`none` if it returned normally). -/
structure OpRes where
  st : EState
  evs : List Ev
  logs : List LogEv
  err : Option ErrKind
deriving DecidableEq, Repr

/-- An operation that does nothing. -/
def OpRes.skip (s : EState) : OpRes := ⟨s, [], [], none⟩

/-- Sequencing of engine operations: the continuation runs only when the
first part returned normally; events and logs accumulate. -/
def OpRes.andThen (r : OpRes) (f : EState → OpRes) : OpRes :=
  match r.err with
  | some _ => r
  | none =>
    let r2 := f r.st
    ⟨r2.st, r.evs ++ r2.evs, r.logs ++ r2.logs, r2.err⟩

namespace Workflow

/-- `Workflow._is_running` (workflow.py:77): RUNNING and PAUSED both
count as running. -/
def isRunningUnsafe (s : EState) : Bool :=
  s.state = WorkflowState.RUNNING ∨ s.state = WorkflowState.PAUSED

/-- `Workflow._is_paused` (workflow.py:90). -/
def isPausedUnsafe (s : EState) : Bool :=
  s.state = WorkflowState.PAUSED

/-- `Workflow._on_task_end` (workflow.py:426): if running, the index is
valid and the current task has stopped, count it, fire `on_task_end`,
clear `task_started_at`. -/
def onTaskEnd (ts : List WTask) (s : EState) : OpRes :=
  if ¬ isRunningUnsafe s then .skip s
  else if ¬ isValidTaskIndex ts.length s.current_task_idx then .skip s
  else
    match s.context with
    | none => ⟨s, [], [], some .runtimeError⟩
    | some ctx =>
      match pyGet ts s.current_task_idx with
      | none => ⟨s, [], [], some .indexError⟩
      | some task =>
        if s.task_mid_run then .skip s
        else
          let rt := ctx.runtime
          let ctx2 : WorkflowContext :=
            { ctx with runtime :=
                { rt with tasks_executed := rt.tasks_executed + 1,
                          task_started_at := false } }
          ⟨{ s with context := some ctx2 }, [.taskEnd task.name], [], none⟩

/-- `Workflow._stop_current_task` (workflow.py:456): stop the current
task if its flag is running, then handle task end. -/
def stopCurrentTask (ts : List WTask) (s : EState) : OpRes :=
  if ¬ isRunningUnsafe s then .skip s
  else if ¬ isValidTaskIndex ts.length s.current_task_idx then .skip s
  else if ¬ s.task_mid_run then .skip s
  else onTaskEnd ts { s with task_mid_run := false }

/-- `Workflow._on_iteration_end` (workflow.py:478): fire
`on_iteration_end`; if not looping, point past the end, fire
`on_current_task_change(prev, None)` and transition to STOPPING; if
looping, wrap to index 0, increment `iteration`, clear `transient`, fire
`on_iteration_start` then `on_current_task_change(prev, tasks[0])`. -/
def onIterationEnd (ts : List WTask) (lp : Bool) (s : EState) : OpRes :=
  if ¬ isRunningUnsafe s then .skip s
  else
    match s.context with
    | none => ⟨s, [], [], some .runtimeError⟩
    | some ctx =>
      let rt := ctx.runtime
      let evEnd := Ev.iterEnd rt.iteration
      let prev : Option String :=
        if isValidTaskIndex ts.length s.current_task_idx then
          (pyGet ts s.current_task_idx).map (fun t => t.name)
        else none
      if ¬ lp then
        let ctx2 : WorkflowContext :=
          { ctx with runtime :=
              { rt with prev_task_idx := some s.current_task_idx,
                        current_task_idx := none } }
        ⟨{ s with current_task_idx := (ts.length : Int),
                  state := .STOPPING,
                  context := some ctx2 },
         [evEnd, .taskChange prev none], [], none⟩
      else
        match ts.head? with
        | none => ⟨s, [evEnd], [], some .indexError⟩
        | some t0 =>
          let ctx2 : WorkflowContext :=
            { ctx with
                runtime :=
                  { rt with prev_task_idx := some s.current_task_idx,
                            current_task_idx := some 0,
                            iteration := rt.iteration + 1 },
                transient := [] }
          ⟨{ s with current_task_idx := 0, context := some ctx2 },
           [evEnd, .iterStart (rt.iteration + 1),
            .taskChange prev (some t0.name)], [], none⟩

/-- `Workflow._next` (workflow.py:323): stop the current task; at the
end of the list (or when sitting on raw index -1) delegate to
`_on_iteration_end`, otherwise advance and fire
`on_current_task_change`. -/
def nextImpl (ts : List WTask) (lp : Bool) (s : EState) : OpRes :=
  if ¬ isRunningUnsafe s then ⟨s, [], [LogEv.warn ("not_running")], none⟩
  else
    match s.context with
    | none => ⟨s, [], [], some .runtimeError⟩
    | some _ =>
      (stopCurrentTask ts s).andThen fun s1 =>
        let prev : Option String :=
          if isValidTaskIndex ts.length s1.current_task_idx then
            (pyGet ts s1.current_task_idx).map (fun t => t.name)
          else none
        let prevIdx := s1.current_task_idx
        let nextIdx := prevIdx + 1
        if (ts.length : Int) ≤ nextIdx ∨ prevIdx = -1 then
          onIterationEnd ts lp s1
        else
          match s1.context with
          | none => ⟨s1, [], [], some .runtimeError⟩
          | some ctx =>
            let ctx2 : WorkflowContext :=
              { ctx with runtime :=
                  { ctx.runtime with prev_task_idx := some prevIdx,
                                     current_task_idx := some nextIdx } }
            match pyGet ts nextIdx with
            | none => ⟨s1, [], [], some .indexError⟩
            | some cur =>
              ⟨{ s1 with current_task_idx := nextIdx, context := some ctx2 },
               [.taskChange prev (some cur.name)], [], none⟩

/-- `Workflow._jump_to` (workflow.py:369): validate the index (raising
`InvalidTaskJumpError` when invalid), stop the current task, move the
pointer, optionally clear `transient`, fire `on_current_task_change`. -/
def jumpToImpl (ts : List WTask) (i : Int) (resetTransient : Bool)
    (s : EState) : OpRes :=
  if ¬ isRunningUnsafe s then ⟨s, [], [LogEv.warn ("not_running")], none⟩
  else if ¬ isValidTaskIndex ts.length i then
    ⟨s, [], [], some (.invalidTaskJump i)⟩
  else
    (stopCurrentTask ts s).andThen fun s1 =>
      match s1.context with
      | none => ⟨s1, [], [], some .runtimeError⟩
      | some ctx =>
        let prev : Option String :=
          if isValidTaskIndex ts.length s1.current_task_idx then
            (pyGet ts s1.current_task_idx).map (fun t => t.name)
          else none
        let ctx2 : WorkflowContext :=
          { ctx with
              runtime :=
                { ctx.runtime with prev_task_idx := some s1.current_task_idx,
                                   current_task_idx := some i },
              transient := if resetTransient then [] else ctx.transient }
        match pyGet ts i with
        | none => ⟨s1, [], [], some .indexError⟩
        | some cur =>
          ⟨{ s1 with current_task_idx := i, context := some ctx2 },
           [.taskChange prev (some cur.name)], [], none⟩

/-- `Workflow._stop` (workflow.py:304): stop the current task, then
transition to STOPPING. -/
def stopImpl (ts : List WTask) (s : EState) : OpRes :=
  if ¬ isRunningUnsafe s then ⟨s, [], [LogEv.warn ("not_running")], none⟩
  else
    (stopCurrentTask ts s).andThen fun s1 =>
      OpRes.skip { s1 with state := .STOPPING }

/-- `Workflow.stop` (workflow.py:696): in-hook guard, running guard,
set `_extern_req`, delegate to `_stop`. -/
def stop (ts : List WTask) (s : EState) : OpRes :=
  if s.in_hook then ⟨s, [], [LogEv.warn ("hook:stop")], none⟩
  else if ¬ isRunningUnsafe s then .skip s
  else stopImpl ts { s with ext_req := true }

/-- `Workflow.next` (workflow.py:711). -/
def next (ts : List WTask) (lp : Bool) (s : EState) : OpRes :=
  if s.in_hook then ⟨s, [], [LogEv.warn ("hook:next")], none⟩
  else if ¬ isRunningUnsafe s then .skip s
  else nextImpl ts lp { s with ext_req := true }

/-- `Workflow.jump_to` (workflow.py:726): in-hook guard, running guard,
set `_extern_req`, call `_jump_to`; any exception from it is logged and
followed by `self._stop()`. -/
def jump_to (ts : List WTask) (i : Int) (resetTransient : Bool)
    (s : EState) : OpRes :=
  if s.in_hook then ⟨s, [], [LogEv.warn ("hook:jump_to")], none⟩
  else if ¬ isRunningUnsafe s then .skip s
  else
    let r := jumpToImpl ts i resetTransient { s with ext_req := true }
    match r.err with
    | none => r
    | some e =>
      let r2 := stopImpl ts r.st
      ⟨r2.st, r.evs ++ r2.evs, r.logs ++ [LogEv.exceptionLog e] ++ r2.logs,
       r2.err⟩

/-- `Workflow.end_iteration` (workflow.py:752). -/
def end_iteration (ts : List WTask) (lp : Bool) (s : EState) : OpRes :=
  if s.in_hook then ⟨s, [], [LogEv.warn ("hook:end_iteration")], none⟩
  else if ¬ isRunningUnsafe s then .skip s
  else
    (stopCurrentTask ts { s with ext_req := true }).andThen fun s1 =>
      onIterationEnd ts lp s1

/-- `Workflow.pause` (workflow.py:774): from RUNNING only; sets PAUSED,
then looks up `self._hooks.on_pause` on the hooks object — the lookup
raises `AttributeError` when the hooks class does not define that
attribute.  `hooksAttrs` is the set of hook method names the hooks
object defines. -/
def pause (hooksAttrs : List String) (s : EState) : OpRes :=
  if s.in_hook then ⟨s, [], [LogEv.warn ("hook:pause")], none⟩
  else if s.state ≠ WorkflowState.RUNNING then .skip s
  else
    let s1 := { s with state := WorkflowState.PAUSED }
    if hooksAttrs.contains ("on_pause") then ⟨s1, [.pausedEv], [], none⟩
    else ⟨s1, [], [], some (.attributeMissing ("on_pause"))⟩

/-- `Workflow.resume` (workflow.py:800): from PAUSED only; sets RUNNING,
then looks up `self._hooks.on_resume`. -/
def resume (hooksAttrs : List String) (s : EState) : OpRes :=
  if s.in_hook then ⟨s, [], [LogEv.warn ("hook:resume")], none⟩
  else if s.state ≠ WorkflowState.PAUSED then .skip s
  else
    let s1 := { s with state := WorkflowState.RUNNING }
    if hooksAttrs.contains ("on_resume") then ⟨s1, [.resumedEv], [], none⟩
    else ⟨s1, [], [], some (.attributeMissing ("on_resume"))⟩

/-- `Workflow.toggle` (workflow.py:822). -/
def toggle (hooksAttrs : List String) (s : EState) : OpRes :=
  if s.in_hook then ⟨s, [], [LogEv.warn ("hook:toggle")], none⟩
  else if s.state = WorkflowState.PAUSED then
    let s1 := { s with state := WorkflowState.RUNNING }
    if hooksAttrs.contains ("on_resume") then ⟨s1, [.resumedEv], [], none⟩
    else ⟨s1, [], [], some (.attributeMissing ("on_resume"))⟩
  else if s.state = WorkflowState.RUNNING then
    let s1 := { s with state := WorkflowState.PAUSED }
    if hooksAttrs.contains ("on_pause") then ⟨s1, [.pausedEv], [], none⟩
    else ⟨s1, [], [], some (.attributeMissing ("on_pause"))⟩
  else .skip s

end Workflow

/-- Control-flow result of one body of the driver's `while True` loop:
continue, break out of the loop, or break because the task's `run`
raised (carrying the failed task's name, matching the logged
exception). -/
inductive LoopCtl
  | cont
  | brk (taskFailed : Option String)
deriving DecidableEq, Repr

/-- Outcome of a driver run.  `completed f`: the loop broke and the
teardown ran (`f` names the task whose `run` raised, if any — that
exception is caught and logged, workflow.py:596).  `raisedErr`: an
exception propagated out of the loop to the caller through the `finally`
block.  `fuelOut` / `blockedPaused`: the loop is still running /
waiting on the condition variable, so the teardown has not run. -/
inductive Outcome
  | completed (taskFailed : Option String)
  | raisedErr (e : ErrKind)
  | fuelOut
  | blockedPaused
deriving DecidableEq, Repr

/-- An external control call arriving while the current cycle's
`task.run` executes (the only window in which another thread can take
the lock). -/
inductive ExtCmd
  | stopCmd
  | nextCmd
  | jumpCmd (i : Int) (resetTransient : Bool)
deriving DecidableEq, Repr

/-- Result of a driver run: final engine state, hook trace, logs,
outcome. -/
structure RunRes where
  st : EState
  trace : List Ev
  logs : List LogEv
  out : Outcome
deriving DecidableEq, Repr

namespace Workflow

/-- Dispatch of an external control call to the public API. -/
def applyCmd (ts : List WTask) (lp : Bool) (c : ExtCmd) (s : EState) : OpRes :=
  match c with
  | .stopCmd => Workflow.stop ts s
  | .nextCmd => Workflow.next ts lp s
  | .jumpCmd i rt => Workflow.jump_to ts i rt s

/-- One body of the driver loop (workflow.py:582-631), entered with the
workflow running and not paused:
load `tasks[current_task_idx]`, set `task_started_at`, fire
`on_task_start`, execute `task.run` outside the lock (its context writes
apply, and at most one external control call interleaves), then — unless
the task raised, the workflow stopped, or `_extern_req` was set — handle
task end, conditional branching, and `_next`. -/
def loopBody (ts : List WTask) (lp : Bool) (cmd : Option ExtCmd)
    (s : EState) : OpRes × LoopCtl :=
  match pyGet ts s.current_task_idx with
  | none => (⟨s, [], [], some .indexError⟩, .brk none)
  | some task =>
    match s.context with
    | none => (⟨s, [], [], some .runtimeError⟩, .brk none)
    | some ctx =>
      let ctx1 : WorkflowContext :=
        { ctx with runtime := { ctx.runtime with task_started_at := true } }
      let ev0 := Ev.taskStart task.name ctx1.runtime.iteration
        s.current_task_idx ctx1.transient ctx1.persistent
      let ctx2 : WorkflowContext :=
        { ctx1 with transient := ctx1.transient ++ scriptTW task.script,
                    persistent := ctx1.persistent ++ scriptPW task.script }
      if scriptTerm task.script = TermKind.failT then
        -- task.run raised: its finally already put the stop flag back,
        -- the driver logs the exception, calls _stop() and breaks
        let s2 : EState :=
          { s with context := some ctx2, task_mid_run := false }
        let r := Workflow.stopImpl ts s2
        (⟨r.st, ev0 :: r.evs,
          [LogEv.exceptionLog (.taskFailure task.name)] ++ r.logs, r.err⟩,
         .brk (some task.name))
      else
        -- while task.run executes its stop flag is in the running
        -- position, unless the task stopped itself from inside step
        let s2 : EState :=
          { s with context := some ctx2,
                   task_mid_run := scriptTerm task.script ≠ TermKind.stopSelfT }
        let rc : OpRes :=
          match cmd with
          | none => OpRes.skip s2
          | some c => applyCmd ts lp c s2
        if rc.err.isSome then
          (⟨rc.st, ev0 :: rc.evs, rc.logs, rc.err⟩, .brk none)
        else
          -- task.run returns; its finally resets the stop flag
          let s3 : EState := { rc.st with task_mid_run := false }
          if ¬ isRunningUnsafe s3 then
            (⟨s3, ev0 :: rc.evs, rc.logs, none⟩, .brk none)
          else if s3.ext_req then
            (⟨{ s3 with ext_req := false }, ev0 :: rc.evs, rc.logs, none⟩,
             .cont)
          else
            let r4 := (⟨s3, rc.evs, rc.logs, none⟩ : OpRes).andThen
              (Workflow.onTaskEnd ts)
            if r4.err.isSome then (⟨r4.st, ev0 :: r4.evs, r4.logs, r4.err⟩, .brk none)
            else
              match task.condNext with
              | some d =>
                if ¬ isValidTaskIndex ts.length d then
                  (⟨r4.st, ev0 :: r4.evs, r4.logs,
                    some (.invalidConditionalIndex task.name d)⟩, .brk none)
                else
                  let r5 := r4.andThen (Workflow.jumpToImpl ts d false)
                  if r5.err.isSome then
                    (⟨r5.st, ev0 :: r5.evs, r5.logs, r5.err⟩, .brk none)
                  else (⟨r5.st, ev0 :: r5.evs, r5.logs, none⟩, .cont)
              | none =>
                let r5 := r4.andThen (Workflow.nextImpl ts lp)
                if r5.err.isSome then
                  (⟨r5.st, ev0 :: r5.evs, r5.logs, r5.err⟩, .brk none)
                else (⟨r5.st, ev0 :: r5.evs, r5.logs, none⟩, .cont)

/-- The driver's `while True` loop (workflow.py:574-631), with fuel.
At the top of each cycle: wait while paused (modelled as
`blockedPaused`, since in a single run no other thread will resume),
break when no longer running, otherwise run one `loopBody` and recurse
on the rest of the schedule. -/
def runLoop (ts : List WTask) (lp : Bool) :
    Nat → List (Option ExtCmd) → EState → RunRes
  | 0, _, s => ⟨s, [], [], .fuelOut⟩
  | fuel + 1, sched, s =>
    if isPausedUnsafe s then ⟨s, [], [], .blockedPaused⟩
    else if ¬ isRunningUnsafe s then ⟨s, [], [], .completed none⟩
    else
      match loopBody ts lp (sched.headD none) s with
      | (r, ctl) =>
        match r.err with
        | some e => ⟨r.st, r.evs, r.logs, .raisedErr e⟩
        | none =>
          match ctl with
          | .brk f => ⟨r.st, r.evs, r.logs, .completed f⟩
          | .cont =>
            let rest := runLoop ts lp fuel sched.tail r.st
            ⟨rest.st, r.evs ++ rest.trace, r.logs ++ rest.logs, rest.out⟩

/-- `Workflow._cleanup_run` (workflow.py:287): only a STOPPING workflow
is reset to IDLE with its context destroyed. -/
def cleanupRun (s : EState) : EState :=
  if s.state = WorkflowState.STOPPING then
    { s with state := .IDLE, current_task_idx := 0, context := none }
  else s

/-- `Workflow._run_impl` (workflow.py:550): `_init_run`, fire
`on_workflow_start` and `on_iteration_start(0)`, run the loop, and in
the `finally` block fire `on_workflow_end` and `_cleanup_run` — the
`finally` is reached whether the loop broke or an exception is
propagating, but not while the loop is still running
(`fuelOut` / `blockedPaused`). -/
def runImpl (ts : List WTask) (lp : Bool) (sched : List (Option ExtCmd))
    (fuel : Nat) (s : EState) : RunRes :=
  if isRunningUnsafe s then ⟨s, [], [], .completed none⟩
  else if s.state = WorkflowState.STOPPING then
    ⟨s, [], [LogEv.warn ("cleanup_pending")], .completed none⟩
  else
    let s0 : EState :=
      { s with current_task_idx := 0, state := .RUNNING }
    match s0.context with
    | none => ⟨s0, [], [], .raisedErr .runtimeError⟩
    | some _ =>
      let evs0 := [Ev.wfStart, Ev.iterStart 0]
      let r := runLoop ts lp fuel sched s0
      match r.out with
      | .fuelOut => ⟨r.st, evs0 ++ r.trace, r.logs, .fuelOut⟩
      | .blockedPaused => ⟨r.st, evs0 ++ r.trace, r.logs, .blockedPaused⟩
      | out =>
        match r.st.context with
        | none => ⟨r.st, evs0 ++ r.trace, r.logs, .raisedErr .runtimeError⟩
        | some ctxE =>
          ⟨cleanupRun r.st,
           evs0 ++ r.trace ++
             [Ev.wfEnd ctxE.runtime.tasks_executed ctxE.runtime.iteration],
           r.logs, out⟩

/-- `Workflow.run` (workflow.py:641): in-hook guard, already-running and
still-cleaning-up guards, `_init_context`, then `_run_impl` on the
current thread. -/
def run (ts : List WTask) (lp : Bool) (sched : List (Option ExtCmd))
    (fuel : Nat) (s : EState) : RunRes :=
  if s.in_hook then ⟨s, [], [LogEv.warn ("hook:run")], .completed none⟩
  else if isRunningUnsafe s then
    ⟨s, [], [LogEv.warn ("already_running")], .completed none⟩
  else if s.state = WorkflowState.STOPPING then
    ⟨s, [], [LogEv.warn ("cleanup_pending")], .completed none⟩
  else
    let s1 := if s.context = none then { s with context := some freshContext }
              else s
    runImpl ts lp sched fuel s1

/-- `Workflow.start` (workflow.py:667): same guards as `run`, then
spawns the driver thread.  The returned Bool states whether a driver
thread is spawned; the thread itself executes `runImpl`. -/
def start (s : EState) : OpRes × Bool :=
  if s.in_hook then (⟨s, [], [LogEv.warn ("hook:start")], none⟩, false)
  else if isRunningUnsafe s then
    (⟨s, [], [LogEv.warn ("already_running")], none⟩, false)
  else if s.state = WorkflowState.STOPPING then
    (⟨s, [], [LogEv.warn ("cleanup_pending")], none⟩, false)
  else
    let s1 := if s.context = none then { s with context := some freshContext }
              else s
    (⟨s1, [], [], none⟩, true)

end Workflow

/-! ## Standalone model of `WorkflowTask.run` (task.py:102-133)

The driver model above folds task execution into `loopBody`; claims
about `WorkflowTask.run` itself are settled against this model, which
keeps the task-local events (`on_start`, `step`, `on_end`). -/

/-- Task-local events of one `WorkflowTask.run` invocation. -/
inductive TEv
  | onStartEv
  | stepEv
  | onEndEv
deriving DecidableEq, Repr

/-- Result of `WorkflowTask.run`: its events, the final position of the
stop flag (`stopEventSet = true` means stopped), whether an exception
propagated out of `run`, and the warnings logged. -/
structure TaskRunRes where
  events : List TEv
  stopEventSet : Bool
  raised : Bool
  logs : List LogEv
deriving DecidableEq, Repr

namespace WorkflowTask

/-- The `while self.is_running()` loop of `WorkflowTask.run`
(task.py:122-128): each script entry is one `step` call; the loop exits
on `TaskInterrupted`, when `stop()` was called from inside `step`, or
when the stop flag is signalled externally (script exhausted); an
arbitrary exception propagates to the `finally`. -/
def runLoopT : List StepAct → List TEv × Bool
  | [] => ([], false)
  | .stepOk _ _ :: r =>
    match runLoopT r with
    | (es, b) => (.stepEv :: es, b)
  | .interrupt :: _ => ([.stepEv], false)
  | .stopSelf :: _ => ([.stepEv], false)
  | .fail :: _ => ([.stepEv], true)

/-- `WorkflowTask.run` (task.py:102): if the stop flag is already in the
running position, warn and return; otherwise clear the flag, run
`on_start` and the step loop, and in the `finally` run `on_end` and set
the flag — whether the loop ended normally or an exception is
propagating. -/
def run (stopEventSet : Bool) (script : List StepAct) : TaskRunRes :=
  if ¬ stopEventSet then
    ⟨[], stopEventSet, false, [LogEv.warn ("task_already_running")]⟩
  else
    match runLoopT script with
    | (es, raised) => ⟨.onStartEv :: es ++ [.onEndEv], true, raised, []⟩

/-- Number of `step` calls `run` makes on a script: every normally
returning step plus the step in which the run terminates (none when the
stop flag was signalled externally with the script exhausted). -/
def stepsTaken : List StepAct → Nat
  | [] => 0
  | .stepOk _ _ :: r => stepsTaken r + 1
  | _ :: _ => 1

end WorkflowTask

/-! ## The hooks interface as defined in the source (hooks.py) -/

/-- The hook method names the `WorkflowHooks` class of hooks.py
actually defines (hooks.py:15-159). -/
def workflowHooksMethods : List String :=
  [("on_workflow_start"), ("on_workflow_end"), ("on_iteration_start"),
   ("on_iteration_end"), ("on_task_start"), ("on_task_end"),
   ("on_lock"), ("on_unlock"), ("on_current_task_change")]

/-! ## Trace observations -/

/-- Names carried by the `on_task_start` events of a trace, in order. -/
def taskStartNames (tr : List Ev) : List String :=
  tr.filterMap fun e =>
    match e with
    | .taskStart n _ _ _ _ => some n
    | _ => none

/-- Names carried by the `on_task_end` events of a trace, in order. -/
def taskEndNames (tr : List Ev) : List String :=
  tr.filterMap fun e =>
    match e with
    | .taskEnd n => some n
    | _ => none

/-- Start/end matching checker: scans a trace with the name of the
not-yet-ended started task (if any); fails on a second start before the
matching end, or on an end with no or a mismatched open start.  Returns
the final open start. -/
def seCheck : Option String → List Ev → Option (Option String)
  | p, [] => some p
  | p, .taskStart n _ _ _ _ :: r =>
    match p with
    | none => seCheck (some n) r
    | some _ => none
  | p, .taskEnd n :: r =>
    match p with
    | some m => if m = n then seCheck none r else none
    | none => none
  | p, _ :: r => seCheck p r

/-- The task start left open by a run, read off its outcome: only a
task whose `run` raised stays open. -/
def outPending : Outcome → Option String
  | .completed f => f
  | _ => none

/-- Every `on_task_start` fired at index 0 of an iteration later than
the first sees an empty transient map. -/
def transientClearAtWrap (tr : List Ev) : Bool :=
  tr.all fun e =>
    match e with
    | .taskStart _ it idx trn _ => it == 0 || !(idx == 0) || trn.isEmpty
    | _ => true

/-- Every `on_task_start` of the trace sees the given persistent map. -/
def persistentAlways (p : KV) (tr : List Ev) : Bool :=
  tr.all fun e =>
    match e with
    | .taskStart _ _ _ _ pers => pers == p
    | _ => true

/-- A demonstration state: a running workflow over a fresh context. -/
def runningDemo : EState := ⟨.RUNNING, 0, false, false, some freshContext, false⟩

/-- A demonstration state: a paused workflow over a fresh context. -/
def pausedDemo : EState := ⟨.PAUSED, 0, false, false, some freshContext, false⟩

/-- A demonstration state observed from inside a hook invocation
(`_run_hook` sets `_in_hook` around the hook body, workflow.py:159). -/
def inHookDemo : EState := ⟨.RUNNING, 0, false, true, some freshContext, false⟩

/-- The persistent mapping of the workflow context, if a context
exists. -/
def persOf (s : EState) : Option KV := s.context.map (fun c => c.persistent)

/-! ## Theorems -/

theorem runLoopT_eq (script : List StepAct) :
    WorkflowTask.runLoopT script =
      (List.replicate (WorkflowTask.stepsTaken script) TEv.stepEv,
       scriptTerm script == TermKind.failT) := by
  induction script with
  | nil => rfl
  | cons a r ih =>
    cases a <;> simp [WorkflowTask.runLoopT, WorkflowTask.stepsTaken,
      scriptTerm, ih, List.replicate_succ]

/-- C8: `WorkflowTask.run(ctx)` on a stopped task runs `on_start` once,
then `step` repeatedly until the terminating outcome, and `on_end` runs
before `run` returns on every exit path — normal, interrupted, or an
exception propagating (`raised`) — with the stop flag set back to the
stopped position. -/
theorem c8_task_run_lifecycle (script : List StepAct) :
    (WorkflowTask.run true script).events =
      TEv.onStartEv ::
        List.replicate (WorkflowTask.stepsTaken script) TEv.stepEv ++
        [TEv.onEndEv] ∧
    (WorkflowTask.run true script).stopEventSet = true ∧
    (WorkflowTask.run true script).raised =
      (scriptTerm script == TermKind.failT) ∧
    (WorkflowTask.run true script).logs = [] := by
  simp [WorkflowTask.run, runLoopT_eq]

/-- C10: calling `WorkflowTask.run` while the task's stop flag is
already in the running position logs a warning and returns immediately:
no `on_start`, `step` or `on_end` events, no exception, and the flag is
left unchanged. -/
theorem c10_task_run_reentry (script : List StepAct) :
    WorkflowTask.run false script =
      ⟨[], false, false, [LogEv.warn ("task_already_running")]⟩ := by
  rfl

/-- C7 (code evidence): the `WorkflowHooks` class of hooks.py defines
neither `on_pause` nor `on_resume` (it defines `on_lock`/`on_unlock`
instead), so `pause()` on a RUNNING workflow with the default hooks
object transitions to PAUSED and then raises `AttributeError` out of the
attribute lookup instead of firing a no-op callback; with a hooks object
that does define the two attributes, `pause`, `resume` and `toggle`
perform the claimed transitions and fire the callbacks. -/
theorem c7_pause_resume_hooks :
    ("on_pause") ∉ workflowHooksMethods ∧
    ("on_resume") ∉ workflowHooksMethods ∧
    (Workflow.pause workflowHooksMethods runningDemo).err =
      some (.attributeMissing ("on_pause")) ∧
    (Workflow.pause workflowHooksMethods runningDemo).st.state =
      WorkflowState.PAUSED ∧
    (Workflow.pause workflowHooksMethods runningDemo).evs = [] ∧
    (Workflow.resume workflowHooksMethods pausedDemo).err =
      some (.attributeMissing ("on_resume")) ∧
    Workflow.pause [("on_pause"), ("on_resume")] runningDemo =
      ⟨pausedDemo, [.pausedEv], [], none⟩ ∧
    Workflow.resume [("on_pause"), ("on_resume")] pausedDemo =
      ⟨runningDemo, [.resumedEv], [], none⟩ ∧
    Workflow.toggle [("on_pause"), ("on_resume")] pausedDemo =
      ⟨runningDemo, [.resumedEv], [], none⟩ := by
  refine ⟨by decide, by decide, ?_, ?_, ?_, ?_, ?_, ?_, ?_⟩ <;> rfl

/-- C5: while `_in_hook` is set, every public control method — `run`,
`start`, `stop`, `next`, `jump_to`, `end_iteration`, `pause`, `resume`,
`toggle` — logs a warning naming the action and returns with the
workflow state unchanged and no hook fired. -/
theorem c5_in_hook_guard (s : EState) (ts : List WTask) (lp : Bool)
    (sched : List (Option ExtCmd)) (fuel : Nat) (i : Int) (rt : Bool)
    (attrs : List String) (h : s.in_hook = true) :
    Workflow.run ts lp sched fuel s =
      ⟨s, [], [LogEv.warn ("hook:run")], .completed none⟩ ∧
    Workflow.start s = (⟨s, [], [LogEv.warn ("hook:start")], none⟩, false) ∧
    Workflow.stop ts s = ⟨s, [], [LogEv.warn ("hook:stop")], none⟩ ∧
    Workflow.next ts lp s = ⟨s, [], [LogEv.warn ("hook:next")], none⟩ ∧
    Workflow.jump_to ts i rt s =
      ⟨s, [], [LogEv.warn ("hook:jump_to")], none⟩ ∧
    Workflow.end_iteration ts lp s =
      ⟨s, [], [LogEv.warn ("hook:end_iteration")], none⟩ ∧
    Workflow.pause attrs s = ⟨s, [], [LogEv.warn ("hook:pause")], none⟩ ∧
    Workflow.resume attrs s = ⟨s, [], [LogEv.warn ("hook:resume")], none⟩ ∧
    Workflow.toggle attrs s = ⟨s, [], [LogEv.warn ("hook:toggle")], none⟩ := by
  refine ⟨?_, ?_, ?_, ?_, ?_, ?_, ?_, ?_, ?_⟩ <;>
    simp [Workflow.run, Workflow.start, Workflow.stop, Workflow.next,
      Workflow.jump_to, Workflow.end_iteration, Workflow.pause,
      Workflow.resume, Workflow.toggle, h]

/-- Witness for C5 at a concrete in-hook state. -/
theorem c5_in_hook_guard_witness :
    Workflow.run [] false [] 0 inHookDemo =
      ⟨inHookDemo, [], [LogEv.warn ("hook:run")], .completed none⟩ ∧
    Workflow.start inHookDemo =
      (⟨inHookDemo, [], [LogEv.warn ("hook:start")], none⟩, false) ∧
    Workflow.stop [] inHookDemo =
      ⟨inHookDemo, [], [LogEv.warn ("hook:stop")], none⟩ ∧
    Workflow.next [] false inHookDemo =
      ⟨inHookDemo, [], [LogEv.warn ("hook:next")], none⟩ ∧
    Workflow.jump_to [] 0 false inHookDemo =
      ⟨inHookDemo, [], [LogEv.warn ("hook:jump_to")], none⟩ ∧
    Workflow.end_iteration [] false inHookDemo =
      ⟨inHookDemo, [], [LogEv.warn ("hook:end_iteration")], none⟩ ∧
    Workflow.pause [] inHookDemo =
      ⟨inHookDemo, [], [LogEv.warn ("hook:pause")], none⟩ ∧
    Workflow.resume [] inHookDemo =
      ⟨inHookDemo, [], [LogEv.warn ("hook:resume")], none⟩ ∧
    Workflow.toggle [] inHookDemo =
      ⟨inHookDemo, [], [LogEv.warn ("hook:toggle")], none⟩ :=
  c5_in_hook_guard inHookDemo [] false [] 0 0 false [] rfl

theorem pyGet_pos (ts : List WTask) (i : Int) (h1 : 0 ≤ i)
    (h2 : i < (ts.length : Int)) :
    pyGet ts i = some (ts.get ⟨i.toNat, by omega⟩) := by
  unfold pyGet
  rw [dif_pos ⟨h1, h2⟩]

theorem pyGet_neg (ts : List WTask) (i : Int)
    (h1 : -(ts.length : Int) ≤ i) (h2 : i < 0) :
    pyGet ts i = some (ts.get ⟨(i + ts.length).toNat, by omega⟩) := by
  unfold pyGet
  rw [dif_neg (by omega), dif_pos ⟨h1, h2⟩]

/-- A valid Python index denotes an element, the same one its
non-negative normalisation denotes. -/
theorem pyGet_of_valid (ts : List WTask) (i : Int)
    (h : isValidTaskIndex ts.length i = true) :
    ∃ t, pyGet ts i = some t ∧ pyGet ts (normIdx ts.length i) = some t ∧
      0 ≤ normIdx ts.length i := by
  have h' : -(ts.length : Int) ≤ i ∧ i < (ts.length : Int) := by
    simpa [isValidTaskIndex] using h
  rcases le_or_lt 0 i with hge | hlt
  · have hn : normIdx ts.length i = i := by simp [normIdx, not_lt.mpr hge]
    exact ⟨ts.get ⟨i.toNat, by omega⟩, pyGet_pos ts i hge h'.2,
      by conv_lhs => rw [hn]
         exact pyGet_pos ts i hge h'.2, by omega⟩
  · have hn : normIdx ts.length i = i + ts.length := by simp [normIdx, hlt]
    refine ⟨ts.get ⟨(i + ts.length).toNat, by omega⟩,
      pyGet_neg ts i h'.1 hlt, ?_, by omega⟩
    conv_lhs => rw [hn]
    rw [pyGet_pos ts (i + ts.length) (by omega) (by omega)]

theorem pyGet_isSome_iff (ts : List WTask) (i : Int) :
    (pyGet ts i).isSome = isValidTaskIndex ts.length i := by
  by_cases h : isValidTaskIndex ts.length i = true
  · obtain ⟨t, ht, -, -⟩ := pyGet_of_valid ts i h
    simp [ht, h]
  · have h' : ¬(-(ts.length : Int) ≤ i ∧ i < (ts.length : Int)) := by
      simpa [isValidTaskIndex] using h
    have : pyGet ts i = none := by
      unfold pyGet
      rw [dif_neg (by omega), dif_neg (by omega)]
    simp [this, h]

/-- C3 (code evidence): a finished `ConditionalTask` whose
`next_task_idx` is outside `[-len(tasks), len(tasks))` makes the driver
raise `InvalidConditionalIndexError` — but nothing catches or logs it:
the exception propagates out of `run()` through the `finally` block,
which fires `on_workflow_end` and then skips `_cleanup_run` because the
state is still RUNNING, so the workflow is left RUNNING with its context
alive instead of being stopped and reset to IDLE. -/
theorem c3_conditional_invalid_index :
    (Workflow.run [⟨("cond"), [.stopSelf], some 5⟩] false [] 3
        idleWorkflow).out =
      Outcome.raisedErr (.invalidConditionalIndex ("cond") 5) ∧
    (Workflow.run [⟨("cond"), [.stopSelf], some 5⟩] false [] 3
        idleWorkflow).st.state = WorkflowState.RUNNING ∧
    (Workflow.run [⟨("cond"), [.stopSelf], some 5⟩] false [] 3
        idleWorkflow).st.context ≠ none ∧
    (Workflow.run [⟨("cond"), [.stopSelf], some 5⟩] false [] 3
        idleWorkflow).logs = [] ∧
    (Workflow.run [⟨("cond"), [.stopSelf], some 5⟩] false [] 3
        idleWorkflow).trace.getLast? = some (Ev.wfEnd 1 0) := by
  refine ⟨rfl, rfl, by decide, rfl, rfl⟩

/-- C4 counterexample: in the workflow `[F]` whose single task raises an
arbitrary exception from `step`, `on_task_start` fires for `F` but no
`on_task_end` ever does — the task's `finally` has already reset its
stop flag, so `_stop_current_task` skips `_on_task_end` — refuting
"each on_task_start dispatch is followed by exactly one matching
on_task_end … including when the task's run raises". -/
theorem c4_counterexample :
    taskStartNames
        (Workflow.run [⟨("F"), [.fail], none⟩] false [] 3
          idleWorkflow).trace = [("F")] ∧
    taskEndNames
        (Workflow.run [⟨("F"), [.fail], none⟩] false [] 3
          idleWorkflow).trace = [] ∧
    (Workflow.run [⟨("F"), [.fail], none⟩] false [] 3
        idleWorkflow).trace.getLast? = some (Ev.wfEnd 0 0) := by
  refine ⟨rfl, rfl, rfl⟩

theorem isRunningUnsafe_of_state (s : EState)
    (h : s.state = WorkflowState.RUNNING ∨ s.state = WorkflowState.PAUSED) :
    Workflow.isRunningUnsafe s = true := by
  rcases h with h | h <;> simp [Workflow.isRunningUnsafe, h]

/-- C2 (amended): on a running (or paused) workflow, `jump_to(i)` with
`-len(tasks) <= i < len(tasks)` moves the current-task pointer to `i`
and the `on_current_task_change` hook it fires last receives
`curr == tasks[normIdx i]`; with `i` outside that range it logs
`InvalidTaskJumpError` — and then, through the `except` clause of
`Workflow.jump_to`, calls `self._stop()`, so the run is terminated
(state STOPPING) rather than left unchanged. -/
theorem c2_jump_to_behavior (ts : List WTask) (s : EState) (i : Int)
    (rt : Bool) (c : WorkflowContext)
    (hh : s.in_hook = false)
    (hr : s.state = WorkflowState.RUNNING ∨ s.state = WorkflowState.PAUSED)
    (hc : s.context = some c)
    (hvc : isValidTaskIndex ts.length s.current_task_idx = true) :
    (isValidTaskIndex ts.length i = true →
      ∃ t, pyGet ts i = some t ∧
        pyGet ts (normIdx ts.length i) = some t ∧
        0 ≤ normIdx ts.length i ∧
        (Workflow.jump_to ts i rt s).st.current_task_idx = i ∧
        (Workflow.jump_to ts i rt s).st.state = s.state ∧
        (Workflow.jump_to ts i rt s).evs.getLast? =
          some (Ev.taskChange
            ((pyGet ts s.current_task_idx).map (fun t2 => t2.name))
            (some t.name)) ∧
        (Workflow.jump_to ts i rt s).err = none) ∧
    (isValidTaskIndex ts.length i = false →
      (Workflow.jump_to ts i rt s).logs =
        [LogEv.exceptionLog (.invalidTaskJump i)] ∧
      (Workflow.jump_to ts i rt s).st.state = WorkflowState.STOPPING) := by
  have hrun := isRunningUnsafe_of_state s hr
  obtain ⟨tp, hp, -, -⟩ := pyGet_of_valid ts s.current_task_idx hvc
  constructor
  · intro hvi
    obtain ⟨t, ht, htn, hnn⟩ := pyGet_of_valid ts i hvi
    refine ⟨t, ht, htn, hnn, ?_⟩
    cases hmr : s.task_mid_run <;>
      rcases hr with hst | hst <;>
        simp [Workflow.jump_to, Workflow.jumpToImpl, Workflow.stopCurrentTask,
          Workflow.onTaskEnd, OpRes.andThen, OpRes.skip, Workflow.isRunningUnsafe,
          hh, hst, hc, hvc, hvi, hmr, hp, ht]
  · intro hvi
    cases hmr : s.task_mid_run <;>
      rcases hr with hst | hst <;>
        simp [Workflow.jump_to, Workflow.jumpToImpl, Workflow.stopCurrentTask,
          Workflow.stopImpl, Workflow.onTaskEnd, OpRes.andThen, OpRes.skip,
          Workflow.isRunningUnsafe, hh, hst, hc, hvc, hvi, hmr, hp]

/-- Witness for C2 at a concrete running workflow over two tasks. -/
theorem c2_jump_to_behavior_witness :
    (isValidTaskIndex ([noOpTask ("A"), noOpTask ("B")] : List WTask).length 1
        = true →
      ∃ t, pyGet [noOpTask ("A"), noOpTask ("B")] 1 = some t ∧
        pyGet [noOpTask ("A"), noOpTask ("B")]
          (normIdx ([noOpTask ("A"), noOpTask ("B")] : List WTask).length 1) =
          some t ∧
        0 ≤ normIdx ([noOpTask ("A"), noOpTask ("B")] : List WTask).length 1 ∧
        (Workflow.jump_to [noOpTask ("A"), noOpTask ("B")] 1 false
          runningDemo).st.current_task_idx = 1 ∧
        (Workflow.jump_to [noOpTask ("A"), noOpTask ("B")] 1 false
          runningDemo).st.state = runningDemo.state ∧
        (Workflow.jump_to [noOpTask ("A"), noOpTask ("B")] 1 false
          runningDemo).evs.getLast? =
          some (Ev.taskChange
            ((pyGet [noOpTask ("A"), noOpTask ("B")]
                runningDemo.current_task_idx).map (fun t2 => t2.name))
            (some t.name)) ∧
        (Workflow.jump_to [noOpTask ("A"), noOpTask ("B")] 1 false
          runningDemo).err = none) ∧
    (isValidTaskIndex ([noOpTask ("A"), noOpTask ("B")] : List WTask).length 1
        = false →
      (Workflow.jump_to [noOpTask ("A"), noOpTask ("B")] 1 false
        runningDemo).logs = [LogEv.exceptionLog (.invalidTaskJump 1)] ∧
      (Workflow.jump_to [noOpTask ("A"), noOpTask ("B")] 1 false
        runningDemo).st.state = WorkflowState.STOPPING) :=
  c2_jump_to_behavior [noOpTask ("A"), noOpTask ("B")] runningDemo 1 false
    freshContext rfl (Or.inl rfl) rfl (by decide)

/-- C2 counterexample: on a RUNNING two-task workflow, `jump_to(7)` does
not leave the workflow unchanged and running — it transitions the state
to STOPPING, terminating the run. -/
theorem c2_invalid_jump_stops :
    runningDemo.state = WorkflowState.RUNNING ∧
    (Workflow.jump_to [noOpTask ("A"), noOpTask ("B")] 7 false
        runningDemo).st.state = WorkflowState.STOPPING ∧
    (Workflow.jump_to [noOpTask ("A"), noOpTask ("B")] 7 false
        runningDemo).logs =
      [LogEv.exceptionLog (.invalidTaskJump 7)] := by
  refine ⟨rfl, rfl, rfl⟩

/-- C9: `_is_running` treats PAUSED as running, so `next()` (and
`jump_to`) are accepted while the workflow is PAUSED: the pointer moves,
`on_current_task_change` fires, the state stays PAUSED — and the driver
loop, finding the workflow paused at the top of its cycle, waits on the
condition variable without starting any task body. -/
theorem c9_paused_next_jump (ts : List WTask) (s : EState)
    (c : WorkflowContext) (lp : Bool) (fuel : Nat)
    (sched : List (Option ExtCmd)) (i : Int) (rt : Bool)
    (hh : s.in_hook = false) (hp : s.state = WorkflowState.PAUSED)
    (hc : s.context = some c) (hmr : s.task_mid_run = false)
    (hvc : isValidTaskIndex ts.length s.current_task_idx = true)
    (hnx : s.current_task_idx + 1 < (ts.length : Int))
    (hneg : s.current_task_idx ≠ -1) :
    Workflow.isRunningUnsafe s = true ∧
    (Workflow.next ts lp s).st.state = WorkflowState.PAUSED ∧
    (Workflow.next ts lp s).st.current_task_idx = s.current_task_idx + 1 ∧
    (∃ cur, pyGet ts (s.current_task_idx + 1) = some cur ∧
      (Workflow.next ts lp s).evs =
        [Ev.taskChange
          ((pyGet ts s.current_task_idx).map (fun t2 => t2.name))
          (some cur.name)]) ∧
    (isValidTaskIndex ts.length i = true →
      (Workflow.jump_to ts i rt s).st.state = WorkflowState.PAUSED ∧
      (Workflow.jump_to ts i rt s).st.current_task_idx = i) ∧
    (0 < fuel →
      Workflow.runLoop ts lp fuel sched s = ⟨s, [], [], .blockedPaused⟩) := by
  have hrun := isRunningUnsafe_of_state s (Or.inr hp)
  have hvalid' : -(ts.length : Int) ≤ s.current_task_idx ∧
      s.current_task_idx < (ts.length : Int) := by
    simpa [isValidTaskIndex] using hvc
  have hvn : isValidTaskIndex ts.length (s.current_task_idx + 1) = true := by
    simp [isValidTaskIndex]; omega
  obtain ⟨tp, hpv, -, -⟩ := pyGet_of_valid ts s.current_task_idx hvc
  obtain ⟨cur, hcur, -, -⟩ := pyGet_of_valid ts (s.current_task_idx + 1) hvn
  have hcond : ¬((ts.length : Int) ≤ s.current_task_idx + 1 ∨
      s.current_task_idx = -1) := by
    push_neg
    exact ⟨by omega, hneg⟩
  refine ⟨hrun, ?_, ?_, ⟨cur, hcur, ?_⟩, ?_, ?_⟩
  · simp [Workflow.next, Workflow.nextImpl, Workflow.stopCurrentTask,
      OpRes.andThen, OpRes.skip, Workflow.isRunningUnsafe, hh, hp, hc, hvc,
      hmr, hpv, hcur, hcond]
  · simp [Workflow.next, Workflow.nextImpl, Workflow.stopCurrentTask,
      OpRes.andThen, OpRes.skip, Workflow.isRunningUnsafe, hh, hp, hc, hvc,
      hmr, hpv, hcur, hcond]
  · simp [Workflow.next, Workflow.nextImpl, Workflow.stopCurrentTask,
      OpRes.andThen, OpRes.skip, Workflow.isRunningUnsafe, hh, hp, hc, hvc,
      hmr, hpv, hcur, hcond]
  · intro hvi
    obtain ⟨t, ht, -, -⟩ := pyGet_of_valid ts i hvi
    constructor <;>
      simp [Workflow.jump_to, Workflow.jumpToImpl, Workflow.stopCurrentTask,
        Workflow.onTaskEnd, OpRes.andThen, OpRes.skip, Workflow.isRunningUnsafe,
        hh, hp, hc, hvc, hvi, hmr, hpv, ht]
  · intro hf
    match fuel, hf with
    | f + 1, _ => simp [Workflow.runLoop, Workflow.isPausedUnsafe, hp]

/-- Witness for C9 at a concrete paused workflow over three tasks. -/
theorem c9_paused_next_jump_witness :
    Workflow.isRunningUnsafe pausedDemo = true ∧
    (Workflow.next [noOpTask ("A"), noOpTask ("B"), noOpTask ("C")] false
        pausedDemo).st.state = WorkflowState.PAUSED ∧
    (Workflow.next [noOpTask ("A"), noOpTask ("B"), noOpTask ("C")] false
        pausedDemo).st.current_task_idx = pausedDemo.current_task_idx + 1 ∧
    (∃ cur, pyGet [noOpTask ("A"), noOpTask ("B"), noOpTask ("C")]
        (pausedDemo.current_task_idx + 1) = some cur ∧
      (Workflow.next [noOpTask ("A"), noOpTask ("B"), noOpTask ("C")] false
          pausedDemo).evs =
        [Ev.taskChange
          ((pyGet [noOpTask ("A"), noOpTask ("B"), noOpTask ("C")]
              pausedDemo.current_task_idx).map (fun t2 => t2.name))
          (some cur.name)]) ∧
    (isValidTaskIndex
        ([noOpTask ("A"), noOpTask ("B"), noOpTask ("C")] : List WTask).length
        2 = true →
      (Workflow.jump_to [noOpTask ("A"), noOpTask ("B"), noOpTask ("C")] 2
          false pausedDemo).st.state = WorkflowState.PAUSED ∧
      (Workflow.jump_to [noOpTask ("A"), noOpTask ("B"), noOpTask ("C")] 2
          false pausedDemo).st.current_task_idx = 2) ∧
    (0 < 1 →
      Workflow.runLoop [noOpTask ("A"), noOpTask ("B"), noOpTask ("C")] false
          1 [] pausedDemo = ⟨pausedDemo, [], [], .blockedPaused⟩) :=
  c9_paused_next_jump [noOpTask ("A"), noOpTask ("B"), noOpTask ("C")]
    pausedDemo freshContext false 1 [] 2 false rfl rfl rfl rfl (by decide)
    (by decide) (by decide)

theorem persOf_andThen (r : OpRes) (f : EState → OpRes)
    (hf : ∀ s', persOf (f s').st = persOf s') :
    persOf ((r.andThen f).st) = persOf r.st := by
  unfold OpRes.andThen
  split
  · rfl
  · simp [hf]

theorem persOf_onTaskEnd (ts : List WTask) (s : EState) :
    persOf (Workflow.onTaskEnd ts s).st = persOf s := by
  unfold Workflow.onTaskEnd OpRes.skip
  repeat' split
  all_goals simp_all [persOf]

theorem persOf_stopCurrentTask (ts : List WTask) (s : EState) :
    persOf (Workflow.stopCurrentTask ts s).st = persOf s := by
  unfold Workflow.stopCurrentTask
  repeat' split
  any_goals rfl
  exact (persOf_onTaskEnd ts _).trans rfl

theorem persOf_onIterationEnd (ts : List WTask) (lp : Bool) (s : EState) :
    persOf (Workflow.onIterationEnd ts lp s).st = persOf s := by
  unfold Workflow.onIterationEnd OpRes.skip
  repeat' split
  all_goals simp_all [persOf]

theorem persOf_nextImpl (ts : List WTask) (lp : Bool) (s : EState) :
    persOf (Workflow.nextImpl ts lp s).st = persOf s := by
  unfold Workflow.nextImpl
  split
  · rfl
  split
  · rfl
  · rw [persOf_andThen, persOf_stopCurrentTask]
    intro s'
    by_cases hend : (ts.length : Int) ≤ s'.current_task_idx + 1 ∨
        s'.current_task_idx = -1
    · simp only [if_pos hend]
      exact persOf_onIterationEnd ts lp s'
    · simp only [if_neg hend]
      cases hc' : s'.context with
      | none => simp [hc']
      | some ctx =>
        cases hg : pyGet ts (s'.current_task_idx + 1) with
        | none => simp [hc', hg]
        | some cur => simp [persOf, hc', hg]

theorem persOf_jumpToImpl (ts : List WTask) (i : Int) (rt : Bool)
    (s : EState) :
    persOf (Workflow.jumpToImpl ts i rt s).st = persOf s := by
  unfold Workflow.jumpToImpl
  split
  · rfl
  split
  · rfl
  · rw [persOf_andThen, persOf_stopCurrentTask]
    intro s'
    cases hc' : s'.context with
    | none => simp [hc']
    | some ctx =>
      cases hg : pyGet ts i with
      | none => simp [hc', hg]
      | some cur => simp [persOf, hc', hg]

theorem persOf_stopImpl (ts : List WTask) (s : EState) :
    persOf (Workflow.stopImpl ts s).st = persOf s := by
  unfold Workflow.stopImpl
  split
  · rfl
  · rw [persOf_andThen, persOf_stopCurrentTask]
    intro s'
    simp [OpRes.skip, persOf]

theorem persOf_stop (ts : List WTask) (s : EState) :
    persOf (Workflow.stop ts s).st = persOf s := by
  unfold Workflow.stop
  repeat' split
  any_goals rfl
  exact (persOf_stopImpl ts _).trans rfl

theorem persOf_next (ts : List WTask) (lp : Bool) (s : EState) :
    persOf (Workflow.next ts lp s).st = persOf s := by
  unfold Workflow.next
  repeat' split
  any_goals rfl
  exact (persOf_nextImpl ts lp _).trans rfl

theorem persOf_jump_to (ts : List WTask) (i : Int) (rt : Bool) (s : EState) :
    persOf (Workflow.jump_to ts i rt s).st = persOf s := by
  unfold Workflow.jump_to
  split
  · rfl
  split
  · rfl
  · dsimp only
    split
    · exact (persOf_jumpToImpl ts i rt _).trans rfl
    · exact (persOf_stopImpl ts _).trans
        ((persOf_jumpToImpl ts i rt _).trans rfl)

theorem persOf_applyCmd (ts : List WTask) (lp : Bool) (c : ExtCmd)
    (s : EState) :
    persOf (Workflow.applyCmd ts lp c s).st = persOf s := by
  cases c <;>
    simp [Workflow.applyCmd, persOf_stop, persOf_next, persOf_jump_to]

theorem pyGet_mem (ts : List WTask) (i : Int) (t : WTask)
    (h : pyGet ts i = some t) : t ∈ ts := by
  unfold pyGet at h
  split at h
  · injection h with h2
    subst h2
    exact List.get_mem ts _ _
  · split at h
    · injection h with h2
      subst h2
      exact List.get_mem ts _ _
    · exact absurd h (by simp)

theorem pyGet_valid (ts : List WTask) (i : Int) (t : WTask)
    (h : pyGet ts i = some t) :
    isValidTaskIndex ts.length i = true := by
  rw [← pyGet_isSome_iff, h]
  rfl

theorem head?_of_pyGet (ts : List WTask) (i : Int) (t : WTask)
    (h : pyGet ts i = some t) : ∃ t0, ts.head? = some t0 := by
  cases ts with
  | nil =>
    refine absurd h ?_
    unfold pyGet
    rw [dif_neg (by simp), dif_neg (by simp)]
    simp
  | cons a l => exact ⟨a, rfl⟩

/-- One driver cycle entered in a RUNNING state with `_extern_req`
clear, `_in_hook` clear and a live context, over tasks none of which
stops itself from inside `step`: the cycle's events are correctly
start/end matched (exactly one `on_task_end` for the fired
`on_task_start`, except that a raising task gets no `on_task_end` and
stays open), and the cycle re-establishes the loop invariant. -/
theorem loopBody_c4 (ts : List WTask) (lp : Bool) (cmd : Option ExtCmd)
    (s : EState) (c : WorkflowContext)
    (hns : ∀ t ∈ ts, scriptTerm t.script ≠ TermKind.stopSelfT)
    (hst : s.state = WorkflowState.RUNNING) (hh : s.in_hook = false)
    (he : s.ext_req = false) (hc : s.context = some c) :
    seCheck none (Workflow.loopBody ts lp cmd s).1.evs =
      some (match (Workflow.loopBody ts lp cmd s).1.err,
                  (Workflow.loopBody ts lp cmd s).2 with
            | some _, _ => none
            | none, .brk f => f
            | none, .cont => none) ∧
    (Workflow.loopBody ts lp cmd s).1.st.in_hook = false ∧
    ((Workflow.loopBody ts lp cmd s).1.st.context).isSome = true ∧
    ((Workflow.loopBody ts lp cmd s).2 = LoopCtl.cont →
      (Workflow.loopBody ts lp cmd s).1.err = none ∧
      (Workflow.loopBody ts lp cmd s).1.st.ext_req = false ∧
      ((Workflow.loopBody ts lp cmd s).1.st.state = WorkflowState.RUNNING ∨
       (Workflow.loopBody ts lp cmd s).1.st.state = WorkflowState.STOPPING)) := by
  cases hpg : pyGet ts s.current_task_idx with
  | none => simp [Workflow.loopBody, hpg, hc, seCheck, hh]
  | some task =>
    have hterm := hns task (pyGet_mem ts _ _ hpg)
    have hvalid := pyGet_valid ts _ _ hpg
    obtain ⟨t0, ht0⟩ := head?_of_pyGet ts _ _ hpg
    by_cases hfail : scriptTerm task.script = TermKind.failT
    · simp [Workflow.loopBody, hpg, hc, hfail, Workflow.stopImpl,
        Workflow.stopCurrentTask, Workflow.onTaskEnd, Workflow.isRunningUnsafe,
        OpRes.andThen, OpRes.skip, hst, hh, he, seCheck]
    · have hmid : (scriptTerm task.script ≠ TermKind.stopSelfT) = True := by
        simp [hterm]
      cases cmd with
      | none =>
        cases hcn : task.condNext with
        | none =>
          by_cases hiter : (ts.length : Int) ≤ s.current_task_idx + 1 ∨
              s.current_task_idx = -1
          · cases lp with
            | false =>
              simp [Workflow.loopBody, hpg, hc, hfail, hcn, hmid, hiter,
                Workflow.nextImpl, Workflow.stopCurrentTask, Workflow.onTaskEnd,
                Workflow.onIterationEnd, Workflow.isRunningUnsafe,
                OpRes.andThen, OpRes.skip, hst, hh, he, hvalid, seCheck]
            | true =>
              simp [Workflow.loopBody, hpg, hc, hfail, hcn, hmid, hiter, ht0,
                Workflow.nextImpl, Workflow.stopCurrentTask, Workflow.onTaskEnd,
                Workflow.onIterationEnd, Workflow.isRunningUnsafe,
                OpRes.andThen, OpRes.skip, hst, hh, he, hvalid, seCheck]
          · have hvn : isValidTaskIndex ts.length (s.current_task_idx + 1)
                = true := by
              have := (by simpa [isValidTaskIndex] using hvalid :
                -(ts.length : Int) ≤ s.current_task_idx ∧
                  s.current_task_idx < (ts.length : Int))
              simp [isValidTaskIndex]
              omega
            obtain ⟨cur, hcur, -, -⟩ :=
              pyGet_of_valid ts (s.current_task_idx + 1) hvn
            simp [Workflow.loopBody, hpg, hc, hfail, hcn, hmid, hiter, hcur,
              Workflow.nextImpl, Workflow.stopCurrentTask, Workflow.onTaskEnd,
              Workflow.isRunningUnsafe, OpRes.andThen, OpRes.skip, hst, hh,
              he, hvalid, seCheck]
        | some d =>
          by_cases hdv : isValidTaskIndex ts.length d = true
          · obtain ⟨td, htd, -, -⟩ := pyGet_of_valid ts d hdv
            simp [Workflow.loopBody, hpg, hc, hfail, hcn, hmid, hdv, htd,
              Workflow.jumpToImpl, Workflow.stopCurrentTask, Workflow.onTaskEnd,
              Workflow.isRunningUnsafe, OpRes.andThen, OpRes.skip, hst, hh,
              he, hvalid, seCheck]
          · simp [Workflow.loopBody, hpg, hc, hfail, hcn, hmid, hdv,
              Workflow.stopCurrentTask, Workflow.onTaskEnd,
              Workflow.isRunningUnsafe, OpRes.andThen, OpRes.skip, hst, hh,
              he, hvalid, seCheck]
      | some c' =>
        cases c' with
        | stopCmd =>
          simp [Workflow.loopBody, Workflow.applyCmd, Workflow.stop,
            Workflow.stopImpl, hpg, hc, hfail, hmid, Workflow.stopCurrentTask,
            Workflow.onTaskEnd, Workflow.isRunningUnsafe, OpRes.andThen,
            OpRes.skip, hst, hh, he, hvalid, seCheck]
        | nextCmd =>
          by_cases hiter : (ts.length : Int) ≤ s.current_task_idx + 1 ∨
              s.current_task_idx = -1
          · cases lp with
            | false =>
              simp [Workflow.loopBody, Workflow.applyCmd, Workflow.next,
                hpg, hc, hfail, hmid, hiter, Workflow.nextImpl,
                Workflow.stopCurrentTask, Workflow.onTaskEnd,
                Workflow.onIterationEnd, Workflow.isRunningUnsafe,
                OpRes.andThen, OpRes.skip, hst, hh, he, hvalid, seCheck]
            | true =>
              simp [Workflow.loopBody, Workflow.applyCmd, Workflow.next,
                hpg, hc, hfail, hmid, hiter, ht0, Workflow.nextImpl,
                Workflow.stopCurrentTask, Workflow.onTaskEnd,
                Workflow.onIterationEnd, Workflow.isRunningUnsafe,
                OpRes.andThen, OpRes.skip, hst, hh, he, hvalid, seCheck]
          · have hvn : isValidTaskIndex ts.length (s.current_task_idx + 1)
                = true := by
              have := (by simpa [isValidTaskIndex] using hvalid :
                -(ts.length : Int) ≤ s.current_task_idx ∧
                  s.current_task_idx < (ts.length : Int))
              simp [isValidTaskIndex]
              omega
            obtain ⟨cur, hcur, -, -⟩ :=
              pyGet_of_valid ts (s.current_task_idx + 1) hvn
            simp [Workflow.loopBody, Workflow.applyCmd, Workflow.next,
              hpg, hc, hfail, hmid, hiter, hcur, Workflow.nextImpl,
              Workflow.stopCurrentTask, Workflow.onTaskEnd,
              Workflow.isRunningUnsafe, OpRes.andThen, OpRes.skip, hst, hh,
              he, hvalid, seCheck]
        | jumpCmd j rt' =>
          by_cases hjv : isValidTaskIndex ts.length j = true
          · obtain ⟨tj, htj, -, -⟩ := pyGet_of_valid ts j hjv
            simp [Workflow.loopBody, Workflow.applyCmd, Workflow.jump_to,
              hpg, hc, hfail, hmid, hjv, htj, Workflow.jumpToImpl,
              Workflow.stopCurrentTask, Workflow.onTaskEnd,
              Workflow.isRunningUnsafe, OpRes.andThen, OpRes.skip, hst, hh,
              he, hvalid, seCheck]
          · simp [Workflow.loopBody, Workflow.applyCmd, Workflow.jump_to,
              hpg, hc, hfail, hmid, hjv, Workflow.jumpToImpl,
              Workflow.stopImpl, Workflow.stopCurrentTask, Workflow.onTaskEnd,
              Workflow.isRunningUnsafe, OpRes.andThen, OpRes.skip, hst, hh,
              he, hvalid, seCheck]

theorem seCheck_append (p : Option String) (a b : List Ev) :
    seCheck p (a ++ b) = (seCheck p a).bind (fun q => seCheck q b) := by
  induction a generalizing p with
  | nil => rfl
  | cons e r ih =>
    cases e with
    | taskStart n it idx trn prs =>
      cases p with
      | none => simp [seCheck, ih]
      | some m => simp [seCheck]
    | taskEnd n =>
      cases p with
      | none => simp [seCheck]
      | some m =>
        by_cases hmn : m = n
        · simp [seCheck, hmn, ih]
        · simp [seCheck, hmn]
    | wfStart => simp [seCheck, ih]
    | wfEnd a1 a2 => simp [seCheck, ih]
    | iterStart i => simp [seCheck, ih]
    | iterEnd i => simp [seCheck, ih]
    | taskChange a1 a2 => simp [seCheck, ih]
    | pausedEv => simp [seCheck, ih]
    | resumedEv => simp [seCheck, ih]

/-- Stepping equation for `runLoop` from a RUNNING state. -/
theorem runLoop_succ_running (ts : List WTask) (lp : Bool) (n : Nat)
    (sched : List (Option ExtCmd)) (s : EState)
    (hrun : s.state = WorkflowState.RUNNING) :
    Workflow.runLoop ts lp (n + 1) sched s =
      (match Workflow.loopBody ts lp (sched.headD none) s with
       | (r, ctl) =>
         match r.err with
         | some e => ⟨r.st, r.evs, r.logs, .raisedErr e⟩
         | none =>
           match ctl with
           | .brk f => ⟨r.st, r.evs, r.logs, .completed f⟩
           | .cont =>
             let rest := Workflow.runLoop ts lp n sched.tail r.st
             ⟨rest.st, r.evs ++ rest.trace, r.logs ++ rest.logs,
              rest.out⟩) := by
  have hnp : Workflow.isPausedUnsafe s = false := by
    simp [Workflow.isPausedUnsafe, hrun]
  have hr : Workflow.isRunningUnsafe s = true := by
    simp [Workflow.isRunningUnsafe, hrun]
  simp [Workflow.runLoop, hnp, hr]

/-- The driver loop preserves start/end matching: from a RUNNING (or
already STOPPING) state with the loop invariant, the produced trace is
matched, with exactly the task of a raising `run` left open. -/
theorem runLoop_c4 (ts : List WTask) (lp : Bool)
    (hns : ∀ t ∈ ts, scriptTerm t.script ≠ TermKind.stopSelfT) :
    ∀ (fuel : Nat) (sched : List (Option ExtCmd)) (s : EState),
      (s.state = WorkflowState.RUNNING ∨ s.state = WorkflowState.STOPPING) →
      s.in_hook = false → s.ext_req = false → s.context.isSome = true →
      seCheck none (Workflow.runLoop ts lp fuel sched s).trace =
        some (outPending (Workflow.runLoop ts lp fuel sched s).out) ∧
      ((Workflow.runLoop ts lp fuel sched s).st.context).isSome = true := by
  intro fuel
  induction fuel with
  | zero =>
    intro sched s h1 h2 h3 h4
    simpa [Workflow.runLoop, outPending, seCheck] using h4
  | succ n ih =>
    intro sched s h1 h2 h3 h4
    rcases h1 with hrun | hstop
    · obtain ⟨c, hc⟩ := Option.isSome_iff_exists.mp h4
      have hlb := loopBody_c4 ts lp (sched.headD none) s c hns hrun h2 h3 hc
      rcases hres : Workflow.loopBody ts lp (sched.headD none) s with ⟨r, ctl⟩
      rw [hres] at hlb
      rw [runLoop_succ_running ts lp n sched s hrun, hres]
      dsimp only
      cases hrerr : r.err with
      | some e =>
        dsimp only
        rw [hrerr] at hlb
        exact ⟨by simpa [outPending] using hlb.1, hlb.2.2.1⟩
      | none =>
        rw [hrerr] at hlb
        cases ctl with
        | brk f =>
          dsimp only
          exact ⟨by simpa [outPending] using hlb.1, hlb.2.2.1⟩
        | cont =>
          dsimp only
          obtain ⟨-, hext, hstates⟩ := hlb.2.2.2 rfl
          have hrest := ih sched.tail r.st hstates hlb.2.1 hext hlb.2.2.1
          refine ⟨?_, hrest.2⟩
          simp only [seCheck_append]
          simp only [hlb.1]
          simpa using hrest.1
    · have hnp : Workflow.isPausedUnsafe s = false := by
        simp [Workflow.isPausedUnsafe, hstop]
      have hr : Workflow.isRunningUnsafe s = false := by
        simp [Workflow.isRunningUnsafe, hstop]
      simpa [Workflow.runLoop, hnp, hr, outPending, seCheck] using h4

/-- C4 (amended): in a workflow run over tasks that do not stop
themselves from inside `step`, every `on_task_start` is followed by
exactly one matching `on_task_end` for the same task before the run
ends — including when the workflow is stopped, redirected or invalidly
jumped externally while the task is running — except that a task whose
`run` raises an exception receives no `on_task_end` and is the open
start the run terminates with; and whenever the run terminates (rather
than still looping or waiting while paused), `on_workflow_end` is the
last hook fired. -/
theorem c4_start_end_matching (ts : List WTask) (lp : Bool)
    (sched : List (Option ExtCmd)) (fuel : Nat)
    (hns : ∀ t ∈ ts, scriptTerm t.script ≠ TermKind.stopSelfT) :
    seCheck none (Workflow.run ts lp sched fuel idleWorkflow).trace =
      some (outPending (Workflow.run ts lp sched fuel idleWorkflow).out) ∧
    ((Workflow.run ts lp sched fuel idleWorkflow).out = Outcome.fuelOut ∨
     (Workflow.run ts lp sched fuel idleWorkflow).out = Outcome.blockedPaused ∨
     ∃ a b, (Workflow.run ts lp sched fuel idleWorkflow).trace.getLast? =
       some (Ev.wfEnd a b)) := by
  have hrl := runLoop_c4 ts lp hns fuel sched
    ⟨.RUNNING, 0, false, false, some freshContext, false⟩
    (Or.inl rfl) rfl rfl rfl
  have hrun_eq : Workflow.run ts lp sched fuel idleWorkflow =
      Workflow.runImpl ts lp sched fuel
        ⟨.IDLE, 0, false, false, some freshContext, false⟩ := rfl
  rw [hrun_eq]
  unfold Workflow.runImpl
  norm_num [Workflow.isRunningUnsafe]
  have hng : ¬(WorkflowState.IDLE = WorkflowState.RUNNING ∨
      WorkflowState.IDLE = WorkflowState.PAUSED) := by simp
  have hng2 : ¬(WorkflowState.IDLE = WorkflowState.STOPPING) := by simp
  simp only [if_neg hng, if_neg hng2]
  rcases hres : Workflow.runLoop ts lp fuel sched
      ⟨.RUNNING, 0, false, false, some freshContext, false⟩ with ⟨st, tr, lg, o⟩
  rw [hres] at hrl
  dsimp only at hrl ⊢
  cases o with
  | fuelOut =>
    dsimp only
    constructor
    · simpa [seCheck, outPending] using hrl.1
    · exact Or.inl rfl
  | blockedPaused =>
    dsimp only
    constructor
    · simpa [seCheck, outPending] using hrl.1
    · exact Or.inr (Or.inl rfl)
  | completed f =>
    obtain ⟨ctxE, hctxE⟩ := Option.isSome_iff_exists.mp hrl.2
    dsimp only
    rw [hctxE]
    dsimp only
    refine ⟨?_, Or.inr (Or.inr
      ⟨ctxE.runtime.tasks_executed, ctxE.runtime.iteration, ?_⟩)⟩
    · simp only [seCheck, seCheck_append, hrl.1]
      simp [seCheck, outPending]
    · rw [show Ev.wfStart :: Ev.iterStart 0 ::
          (tr ++
            [Ev.wfEnd ctxE.runtime.tasks_executed ctxE.runtime.iteration]) =
          (Ev.wfStart :: Ev.iterStart 0 :: tr) ++
            [Ev.wfEnd ctxE.runtime.tasks_executed ctxE.runtime.iteration]
          by simp]
      exact List.getLast?_concat _
  | raisedErr e =>
    obtain ⟨ctxE, hctxE⟩ := Option.isSome_iff_exists.mp hrl.2
    dsimp only
    rw [hctxE]
    dsimp only
    refine ⟨?_, Or.inr (Or.inr
      ⟨ctxE.runtime.tasks_executed, ctxE.runtime.iteration, ?_⟩)⟩
    · simp only [seCheck, seCheck_append, hrl.1]
      simp [seCheck, outPending]
    · rw [show Ev.wfStart :: Ev.iterStart 0 ::
          (tr ++
            [Ev.wfEnd ctxE.runtime.tasks_executed ctxE.runtime.iteration]) =
          (Ev.wfStart :: Ev.iterStart 0 :: tr) ++
            [Ev.wfEnd ctxE.runtime.tasks_executed ctxE.runtime.iteration]
          by simp]
      exact List.getLast?_concat _

/-- Witness for C4 at a concrete one-task workflow. -/
theorem c4_start_end_matching_witness :
    seCheck none
        (Workflow.run [noOpTask ("A")] false [] 2 idleWorkflow).trace =
      some (outPending
        (Workflow.run [noOpTask ("A")] false [] 2 idleWorkflow).out) ∧
    ((Workflow.run [noOpTask ("A")] false [] 2 idleWorkflow).out =
        Outcome.fuelOut ∨
     (Workflow.run [noOpTask ("A")] false [] 2 idleWorkflow).out =
        Outcome.blockedPaused ∨
     ∃ a b, (Workflow.run [noOpTask ("A")] false [] 2
        idleWorkflow).trace.getLast? = some (Ev.wfEnd a b)) :=
  c4_start_end_matching [noOpTask ("A")] false [] 2 (by decide)

theorem get_append_len (l1 : List WTask) (t : WTask) (l2 : List WTask) :
    ∀ (h : l1.length < (l1 ++ t :: l2).length),
      (l1 ++ t :: l2).get ⟨l1.length, h⟩ = t := by
  induction l1 with
  | nil => intro h; rfl
  | cons a l ih => intro h; exact ih _

theorem pyGet_append_length (pre : List WTask) (t : WTask)
    (rest : List WTask) :
    pyGet (pre ++ t :: rest) (pre.length : Int) = some t := by
  rw [pyGet_pos _ _ (by omega) (by simp)]
  exact congrArg some (get_append_len pre t rest _)

theorem runLoop_stopping (ts : List WTask) (lp : Bool) (fuel : Nat)
    (sched : List (Option ExtCmd)) (s : EState)
    (h : s.state = WorkflowState.STOPPING) (hf : 0 < fuel) :
    Workflow.runLoop ts lp fuel sched s = ⟨s, [], [], .completed none⟩ := by
  match fuel, hf with
  | f + 1, _ =>
    simp [Workflow.runLoop, Workflow.isPausedUnsafe, Workflow.isRunningUnsafe,
      h]

/-- One driver cycle over a naturally terminating, non-conditional task
that is not the last of the iteration: `on_task_start`, `on_task_end`,
`on_current_task_change(task, next)`, pointer advanced. -/
theorem loopBody_linear_mid (ts : List WTask) (lp : Bool) (s : EState)
    (c : WorkflowContext) (t cur : WTask)
    (hst : s.state = WorkflowState.RUNNING) (hh : s.in_hook = false)
    (he : s.ext_req = false) (hc : s.context = some c)
    (hpg : pyGet ts s.current_task_idx = some t)
    (hnf : scriptTerm t.script ≠ TermKind.failT) (hcn : t.condNext = none)
    (hiter : ¬((ts.length : Int) ≤ s.current_task_idx + 1 ∨
        s.current_task_idx = -1))
    (hcur : pyGet ts (s.current_task_idx + 1) = some cur) :
    Workflow.loopBody ts lp none s =
      (⟨⟨WorkflowState.RUNNING, s.current_task_idx + 1, false, false,
         some ⟨⟨some (s.current_task_idx + 1), some s.current_task_idx,
                c.runtime.iteration, c.runtime.tasks_executed + 1, false⟩,
               c.persistent ++ scriptPW t.script,
               c.transient ++ scriptTW t.script⟩, false⟩,
        [Ev.taskStart t.name c.runtime.iteration s.current_task_idx
           c.transient c.persistent,
         Ev.taskEnd t.name,
         Ev.taskChange (some t.name) (some cur.name)],
        [], none⟩, LoopCtl.cont) := by
  have hvalid := pyGet_valid ts _ _ hpg
  simp [Workflow.loopBody, Workflow.nextImpl, Workflow.stopCurrentTask,
    Workflow.onTaskEnd, Workflow.isRunningUnsafe, OpRes.andThen, OpRes.skip,
    hst, hh, he, hc, hpg, hnf, hcn, hiter, hcur, hvalid]

/-- One driver cycle over the last naturally terminating task of a
non-looping run: `on_task_start`, `on_task_end`, `on_iteration_end`,
`on_current_task_change(task, none)`, state STOPPING. -/
theorem loopBody_linear_last (ts : List WTask) (s : EState)
    (c : WorkflowContext) (t : WTask)
    (hst : s.state = WorkflowState.RUNNING) (hh : s.in_hook = false)
    (he : s.ext_req = false) (hc : s.context = some c)
    (hpg : pyGet ts s.current_task_idx = some t)
    (hnf : scriptTerm t.script ≠ TermKind.failT) (hcn : t.condNext = none)
    (hiter : (ts.length : Int) ≤ s.current_task_idx + 1 ∨
        s.current_task_idx = -1) :
    Workflow.loopBody ts false none s =
      (⟨⟨WorkflowState.STOPPING, (ts.length : Int), false, false,
         some ⟨⟨none, some s.current_task_idx, c.runtime.iteration,
                c.runtime.tasks_executed + 1, false⟩,
               c.persistent ++ scriptPW t.script,
               c.transient ++ scriptTW t.script⟩, false⟩,
        [Ev.taskStart t.name c.runtime.iteration s.current_task_idx
           c.transient c.persistent,
         Ev.taskEnd t.name,
         Ev.iterEnd c.runtime.iteration,
         Ev.taskChange (some t.name) none],
        [], none⟩, LoopCtl.cont) := by
  have hvalid := pyGet_valid ts _ _ hpg
  simp [Workflow.loopBody, Workflow.nextImpl, Workflow.stopCurrentTask,
    Workflow.onTaskEnd, Workflow.onIterationEnd, Workflow.isRunningUnsafe,
    OpRes.andThen, OpRes.skip, hst, hh, he, hc, hpg, hnf, hcn, hiter, hvalid]

/-- Driver loop over naturally terminating, non-conditional tasks with
no external control calls and `loop=false`: from task index
`pre.length`, `on_task_start` fires exactly once per remaining task, in
task order, and the run completes. -/
theorem runLoop_linear (ts : List WTask)
    (hnat : ∀ t ∈ ts,
      scriptTerm t.script ≠ TermKind.failT ∧ t.condNext = none) :
    ∀ (rest : List WTask), rest ≠ [] →
    ∀ (pre : List WTask) (s : EState) (c : WorkflowContext) (fuel : Nat),
      ts = pre ++ rest →
      s.state = WorkflowState.RUNNING → s.in_hook = false →
      s.ext_req = false → s.context = some c →
      s.current_task_idx = (pre.length : Int) →
      rest.length + 1 ≤ fuel →
      taskStartNames (Workflow.runLoop ts false fuel [] s).trace =
        rest.map (fun t => t.name) ∧
      (Workflow.runLoop ts false fuel [] s).out = Outcome.completed none := by
  intro rest
  induction rest with
  | nil => intro h; exact absurd rfl h
  | cons t rest' ih =>
    intro _ pre s c fuel hts hst hh he hc hidx hfuel
    match fuel, hfuel with
    | f + 1, hfuel =>
      have hpg : pyGet ts s.current_task_idx = some t := by
        rw [hidx, hts]; exact pyGet_append_length pre t rest'
      have hmemt : t ∈ ts := pyGet_mem ts _ _ hpg
      have hnf : scriptTerm t.script ≠ TermKind.failT := (hnat t hmemt).1
      have hcn : t.condNext = none := (hnat t hmemt).2
      rw [runLoop_succ_running ts false f [] s hst]
      rw [show (List.headD ([] : List (Option ExtCmd)) none) = none from rfl]
      cases rest' with
      | nil =>
        have hiter : (ts.length : Int) ≤ s.current_task_idx + 1 ∨
            s.current_task_idx = -1 := by
          left; rw [hidx, hts]; simp
        have hf1 : 1 ≤ f := by simpa using hfuel
        rw [loopBody_linear_last ts s c t hst hh he hc hpg hnf hcn hiter]
        dsimp only
        simp only [List.tail_nil]
        rw [runLoop_stopping ts false f [] _ rfl (by omega)]
        simp [taskStartNames]
      | cons u rest'' =>
        have hlen : ((pre ++ [t]).length : Int) = (pre.length : Int) + 1 := by
          simp
        have hiter : ¬((ts.length : Int) ≤ s.current_task_idx + 1 ∨
            s.current_task_idx = -1) := by
          rw [hidx, hts]
          push_neg
          constructor
          · simp
          · omega
        have hcur : pyGet ts (s.current_task_idx + 1) = some u := by
          rw [hidx, ← hlen, hts, show pre ++ t :: u :: rest'' =
            (pre ++ [t]) ++ u :: rest'' by simp]
          exact pyGet_append_length (pre ++ [t]) u rest''
        rw [loopBody_linear_mid ts false s c t u hst hh he hc hpg hnf hcn
          hiter hcur]
        dsimp only
        simp only [List.tail_nil]
        have hrest := ih (by simp) (pre ++ [t])
          ⟨WorkflowState.RUNNING, s.current_task_idx + 1, false, false,
           some ⟨⟨some (s.current_task_idx + 1), some s.current_task_idx,
                  c.runtime.iteration, c.runtime.tasks_executed + 1, false⟩,
                 c.persistent ++ scriptPW t.script,
                 c.transient ++ scriptTW t.script⟩, false⟩
          ⟨⟨some (s.current_task_idx + 1), some s.current_task_idx,
            c.runtime.iteration, c.runtime.tasks_executed + 1, false⟩,
           c.persistent ++ scriptPW t.script,
           c.transient ++ scriptTW t.script⟩
          f (by rw [hts]; simp) rfl rfl rfl rfl
          (by dsimp only; rw [hidx, hlen]) (by simpa using hfuel)
        refine ⟨?_, hrest.2⟩
        simp only [taskStartNames, List.filterMap_cons, List.filterMap_append]
        simp only [taskStartNames] at hrest
        simp [hrest.1, taskStartNames]

/-- C1: the three-NoOp non-looping workflow fires exactly the claimed
hook trace — `wf_start; iter_start(0); task_start(A); task_end(A);
task_change(A,B); task_start(B); task_end(B); task_change(B,C);
task_start(C); task_end(C); iter_end(0); task_change(C,none); wf_end` —
with `on_workflow_end` observing `tasks_executed = 3` and
`iteration = 0`, and the engine back in IDLE; and in general, with
`loop=false` and tasks that each terminate naturally (no exception, no
conditional redirection) and no external control calls, `on_task_start`
fires exactly once per task, in task order. -/
theorem c1_linear_completion :
    (Workflow.run [noOpTask ("A"), noOpTask ("B"), noOpTask ("C")] false []
        4 idleWorkflow =
      ⟨idleWorkflow,
       [Ev.wfStart, Ev.iterStart 0,
        Ev.taskStart ("A") 0 0 [] [], Ev.taskEnd ("A"),
        Ev.taskChange (some ("A")) (some ("B")),
        Ev.taskStart ("B") 0 1 [] [], Ev.taskEnd ("B"),
        Ev.taskChange (some ("B")) (some ("C")),
        Ev.taskStart ("C") 0 2 [] [], Ev.taskEnd ("C"),
        Ev.iterEnd 0, Ev.taskChange (some ("C")) none,
        Ev.wfEnd 3 0],
       [], Outcome.completed none⟩) ∧
    (∀ (ts : List WTask) (fuel : Nat),
      (∀ t ∈ ts, scriptTerm t.script ≠ TermKind.failT ∧ t.condNext = none) →
      ts.length + 1 ≤ fuel →
      taskStartNames (Workflow.run ts false [] fuel idleWorkflow).trace =
        ts.map (fun t => t.name)) := by
  constructor
  · rfl
  · intro ts fuel hnat hfuel
    have hng : ¬(WorkflowState.IDLE = WorkflowState.RUNNING ∨
        WorkflowState.IDLE = WorkflowState.PAUSED) := by simp
    have hng2 : ¬(WorkflowState.IDLE = WorkflowState.STOPPING) := by simp
    have hrun_eq : Workflow.run ts false [] fuel idleWorkflow =
        Workflow.runImpl ts false [] fuel
          ⟨.IDLE, 0, false, false, some freshContext, false⟩ := rfl
    rw [hrun_eq]
    unfold Workflow.runImpl
    norm_num [Workflow.isRunningUnsafe]
    simp only [if_neg hng, if_neg hng2]
    by_cases hts0 : ts = []
    · subst hts0
      match fuel, hfuel with
      | f + 1, _ =>
        have h1 : pyGet ([] : List WTask) 0 = none := by
          unfold pyGet
          rw [dif_neg (by simp), dif_neg (by simp)]
        have hloop : Workflow.runLoop ([] : List WTask) false (f + 1) []
            ⟨.RUNNING, 0, false, false, some freshContext, false⟩ =
            ⟨⟨.RUNNING, 0, false, false, some freshContext, false⟩, [], [],
             .raisedErr .indexError⟩ := by
          rw [runLoop_succ_running _ _ _ _ _ rfl]
          simp [Workflow.loopBody, h1]
        rw [hloop]
        dsimp only
        simp [taskStartNames]
    · have hlin := runLoop_linear ts hnat ts hts0 []
        ⟨.RUNNING, 0, false, false, some freshContext, false⟩
        freshContext fuel (by simp) rfl rfl rfl rfl (by simp)
        (by omega)
      rcases hres : Workflow.runLoop ts false fuel []
          ⟨.RUNNING, 0, false, false, some freshContext, false⟩
        with ⟨st, tr, lg, o⟩
      rw [hres] at hlin
      dsimp only at hlin ⊢
      rw [hlin.2]
      dsimp only
      cases hctx : st.context with
      | none =>
        dsimp only
        simpa [taskStartNames] using hlin.1
      | some ctxE =>
        dsimp only
        simp only [taskStartNames, List.filterMap_cons,
          List.filterMap_append] at hlin ⊢
        simp [hlin.1]

theorem wrapOk_ev (it : Nat) (idx : Int) (trn : KV)
    (h : 0 < it → idx = 0 → trn = []) :
    (it = 0 ∨ ¬idx = 0) ∨ trn = [] := by
  by_cases h1 : it = 0
  · exact Or.inl (Or.inl h1)
  · by_cases h2 : idx = 0
    · exact Or.inr (h (Nat.pos_of_ne_zero h1) h2)
    · exact Or.inl (Or.inr h2)

/-- One no-command driver cycle over non-conditional tasks keeps the
wrap invariant: every `on_task_start` fired at index 0 of a later
iteration sees an empty transient map. -/
theorem loopBody_transient (ts : List WTask) (lp : Bool) (s : EState)
    (c : WorkflowContext)
    (hcn : ∀ t ∈ ts, t.condNext = none)
    (hst : s.state = WorkflowState.RUNNING) (he : s.ext_req = false)
    (hc : s.context = some c) (hidx : 0 ≤ s.current_task_idx)
    (hinv : 0 < c.runtime.iteration → s.current_task_idx = 0 →
      c.transient = []) :
    transientClearAtWrap (Workflow.loopBody ts lp none s).1.evs = true ∧
    ((Workflow.loopBody ts lp none s).2 = LoopCtl.cont →
      (Workflow.loopBody ts lp none s).1.st.ext_req = false ∧
      ((Workflow.loopBody ts lp none s).1.st.state = WorkflowState.RUNNING ∨
       (Workflow.loopBody ts lp none s).1.st.state =
         WorkflowState.STOPPING) ∧
      0 ≤ (Workflow.loopBody ts lp none s).1.st.current_task_idx ∧
      ∃ c2, (Workflow.loopBody ts lp none s).1.st.context = some c2 ∧
        (0 < c2.runtime.iteration →
          (Workflow.loopBody ts lp none s).1.st.current_task_idx = 0 →
          c2.transient = [])) := by
  cases hpg : pyGet ts s.current_task_idx with
  | none => simp [Workflow.loopBody, hpg, hc, transientClearAtWrap]
  | some task =>
    have hcn0 : task.condNext = none := hcn task (pyGet_mem ts _ _ hpg)
    have hvalid := pyGet_valid ts _ _ hpg
    have hlen : ts ≠ [] := by
      intro h0
      rw [h0] at hvalid
      simp [isValidTaskIndex] at hvalid
      omega
    have hlenpos : 0 < ts.length := List.length_pos.mpr hlen
    obtain ⟨t0, ht0⟩ := head?_of_pyGet ts _ _ hpg
    by_cases hfail : scriptTerm task.script = TermKind.failT
    · constructor
      · simp [Workflow.loopBody, hpg, hc, hfail, Workflow.stopImpl,
          Workflow.stopCurrentTask, Workflow.onTaskEnd,
          Workflow.isRunningUnsafe, OpRes.andThen, OpRes.skip, hst,
          transientClearAtWrap]
        exact wrapOk_ev _ _ _ hinv
      · intro hcont
        exact absurd hcont (by
          simp [Workflow.loopBody, hpg, hc, hfail, Workflow.stopImpl,
            Workflow.stopCurrentTask, Workflow.onTaskEnd,
            Workflow.isRunningUnsafe, OpRes.andThen, OpRes.skip, hst])
    · by_cases hiter : (ts.length : Int) ≤ s.current_task_idx + 1 ∨
          s.current_task_idx = -1
      · cases lp with
        | false =>
          constructor
          · simp [Workflow.loopBody, hpg, hc, hfail, hcn0, hiter,
              Workflow.nextImpl, Workflow.stopCurrentTask,
              Workflow.onTaskEnd, Workflow.onIterationEnd,
              Workflow.isRunningUnsafe, OpRes.andThen, OpRes.skip, hst, he,
              hvalid, transientClearAtWrap]
            exact wrapOk_ev _ _ _ hinv
          · intro _
            simp [Workflow.loopBody, hpg, hc, hfail, hcn0, hiter,
              Workflow.nextImpl, Workflow.stopCurrentTask,
              Workflow.onTaskEnd, Workflow.onIterationEnd,
              Workflow.isRunningUnsafe, OpRes.andThen, OpRes.skip, hst, he,
              hvalid]
            exact fun _ h0 => absurd h0 hlen
        | true =>
          constructor
          · simp [Workflow.loopBody, hpg, hc, hfail, hcn0, hiter, ht0,
              Workflow.nextImpl, Workflow.stopCurrentTask,
              Workflow.onTaskEnd, Workflow.onIterationEnd,
              Workflow.isRunningUnsafe, OpRes.andThen, OpRes.skip, hst, he,
              hvalid, transientClearAtWrap]
            exact wrapOk_ev _ _ _ hinv
          · intro _
            simp [Workflow.loopBody, hpg, hc, hfail, hcn0, hiter, ht0,
              Workflow.nextImpl, Workflow.stopCurrentTask,
              Workflow.onTaskEnd, Workflow.onIterationEnd,
              Workflow.isRunningUnsafe, OpRes.andThen, OpRes.skip, hst, he,
              hvalid]
      · have hvn : isValidTaskIndex ts.length (s.current_task_idx + 1)
            = true := by
          have := (by simpa [isValidTaskIndex] using hvalid :
            -(ts.length : Int) ≤ s.current_task_idx ∧
              s.current_task_idx < (ts.length : Int))
          simp [isValidTaskIndex]
          omega
        obtain ⟨cur, hcur, -, -⟩ :=
          pyGet_of_valid ts (s.current_task_idx + 1) hvn
        constructor
        · simp [Workflow.loopBody, hpg, hc, hfail, hcn0, hiter, hcur,
            Workflow.nextImpl, Workflow.stopCurrentTask, Workflow.onTaskEnd,
            Workflow.isRunningUnsafe, OpRes.andThen, OpRes.skip, hst, he,
            hvalid, transientClearAtWrap]
          exact wrapOk_ev _ _ _ hinv
        · intro _
          simp [Workflow.loopBody, hpg, hc, hfail, hcn0, hiter, hcur,
            Workflow.nextImpl, Workflow.stopCurrentTask, Workflow.onTaskEnd,
            Workflow.isRunningUnsafe, OpRes.andThen, OpRes.skip, hst, he,
            hvalid]
          omega

theorem transientClearAtWrap_append (a b : List Ev) :
    transientClearAtWrap (a ++ b) =
      (transientClearAtWrap a && transientClearAtWrap b) :=
  List.all_append

/-- The driver loop with no external control calls over non-conditional
tasks: every `on_task_start` fired at index 0 of an iteration later
than the first sees an empty transient map. -/
theorem runLoop_transient (ts : List WTask) (lp : Bool)
    (hcn : ∀ t ∈ ts, t.condNext = none) :
    ∀ (fuel : Nat) (s : EState) (c : WorkflowContext),
      (s.state = WorkflowState.RUNNING ∨ s.state = WorkflowState.STOPPING) →
      s.ext_req = false → s.context = some c → 0 ≤ s.current_task_idx →
      (0 < c.runtime.iteration → s.current_task_idx = 0 →
        c.transient = []) →
      transientClearAtWrap (Workflow.runLoop ts lp fuel [] s).trace
        = true := by
  intro fuel
  induction fuel with
  | zero =>
    intro s c h1 h2 h3 h4 h5
    simp [Workflow.runLoop, transientClearAtWrap]
  | succ n ih =>
    intro s c h1 h2 h3 h4 h5
    rcases h1 with hrun | hstop
    · have hlb := loopBody_transient ts lp s c hcn hrun h2 h3 h4 h5
      rcases hres : Workflow.loopBody ts lp none s with ⟨r, ctl⟩
      rw [hres] at hlb
      rw [runLoop_succ_running ts lp n [] s hrun]
      rw [show (List.headD ([] : List (Option ExtCmd)) none) = none
        from rfl]
      rw [hres]
      dsimp only
      cases hrerr : r.err with
      | some e => exact hlb.1
      | none =>
        cases ctl with
        | brk f => exact hlb.1
        | cont =>
          dsimp only
          obtain ⟨he2, hst2, hidx2, c2, hc2, hinv2⟩ := hlb.2 rfl
          rw [show List.tail ([] : List (Option ExtCmd)) = [] from rfl]
          rw [transientClearAtWrap_append]
          rw [hlb.1, ih r.st c2 hst2 he2 hc2 hidx2 hinv2]
          rfl
    · have hnp : Workflow.isPausedUnsafe s = false := by
        simp [Workflow.isPausedUnsafe, hstop]
      have hr : Workflow.isRunningUnsafe s = false := by
        simp [Workflow.isRunningUnsafe, hstop]
      simp [Workflow.runLoop, hnp, hr, transientClearAtWrap]

theorem persistentAlways_append (p : KV) (a b : List Ev) :
    persistentAlways p (a ++ b) =
      (persistentAlways p a && persistentAlways p b) :=
  List.all_append

/-- One driver cycle over tasks that write no persistent entries — with
any external control call allowed — neither changes the context's
persistent map nor shows a different persistent map to any
`on_task_start`. -/
theorem loopBody_pers (ts : List WTask) (lp : Bool) (cmd : Option ExtCmd)
    (s : EState) (c : WorkflowContext)
    (hpw : ∀ t ∈ ts, scriptPW t.script = [])
    (hst : s.state = WorkflowState.RUNNING) (hh : s.in_hook = false)
    (he : s.ext_req = false) (hc : s.context = some c) :
    persistentAlways c.persistent (Workflow.loopBody ts lp cmd s).1.evs
      = true ∧
    (∃ c2, (Workflow.loopBody ts lp cmd s).1.st.context = some c2 ∧
      c2.persistent = c.persistent) ∧
    ((Workflow.loopBody ts lp cmd s).2 = LoopCtl.cont →
      (Workflow.loopBody ts lp cmd s).1.st.ext_req = false ∧
      ((Workflow.loopBody ts lp cmd s).1.st.state = WorkflowState.RUNNING ∨
       (Workflow.loopBody ts lp cmd s).1.st.state = WorkflowState.STOPPING) ∧
      (Workflow.loopBody ts lp cmd s).1.st.in_hook = false) := by
  cases hpg : pyGet ts s.current_task_idx with
  | none => simp [Workflow.loopBody, hpg, hc, persistentAlways]
  | some task =>
    have hpw0 : scriptPW task.script = [] := hpw task (pyGet_mem ts _ _ hpg)
    have hvalid := pyGet_valid ts _ _ hpg
    obtain ⟨t0, ht0⟩ := head?_of_pyGet ts _ _ hpg
    by_cases hfail : scriptTerm task.script = TermKind.failT
    · simp [Workflow.loopBody, hpg, hc, hfail, hpw0, Workflow.stopImpl,
        Workflow.stopCurrentTask, Workflow.onTaskEnd, Workflow.isRunningUnsafe,
        OpRes.andThen, OpRes.skip, hst, hh, he, persistentAlways]
    · cases cmd with
      | none =>
        cases hcn : task.condNext with
        | none =>
          by_cases hiter : (ts.length : Int) ≤ s.current_task_idx + 1 ∨
              s.current_task_idx = -1
          · cases lp with
            | false =>
              simp [Workflow.loopBody, hpg, hc, hfail, hcn, hpw0, hiter,
                Workflow.nextImpl, Workflow.stopCurrentTask, Workflow.onTaskEnd,
                Workflow.onIterationEnd, Workflow.isRunningUnsafe,
                OpRes.andThen, OpRes.skip, hst, hh, he, hvalid,
                persistentAlways]
            | true =>
              simp [Workflow.loopBody, hpg, hc, hfail, hcn, hpw0, hiter, ht0,
                Workflow.nextImpl, Workflow.stopCurrentTask, Workflow.onTaskEnd,
                Workflow.onIterationEnd, Workflow.isRunningUnsafe,
                OpRes.andThen, OpRes.skip, hst, hh, he, hvalid,
                persistentAlways]
          · have hvn : isValidTaskIndex ts.length (s.current_task_idx + 1)
                = true := by
              have := (by simpa [isValidTaskIndex] using hvalid :
                -(ts.length : Int) ≤ s.current_task_idx ∧
                  s.current_task_idx < (ts.length : Int))
              simp [isValidTaskIndex]
              omega
            obtain ⟨cur, hcur, -, -⟩ :=
              pyGet_of_valid ts (s.current_task_idx + 1) hvn
            simp [Workflow.loopBody, hpg, hc, hfail, hcn, hpw0, hiter, hcur,
              Workflow.nextImpl, Workflow.stopCurrentTask, Workflow.onTaskEnd,
              Workflow.isRunningUnsafe, OpRes.andThen, OpRes.skip, hst, hh,
              he, hvalid, persistentAlways]
        | some d =>
          by_cases hdv : isValidTaskIndex ts.length d = true
          · obtain ⟨td, htd, -, -⟩ := pyGet_of_valid ts d hdv
            simp [Workflow.loopBody, hpg, hc, hfail, hcn, hpw0, hdv, htd,
              Workflow.jumpToImpl, Workflow.stopCurrentTask, Workflow.onTaskEnd,
              Workflow.isRunningUnsafe, OpRes.andThen, OpRes.skip, hst, hh,
              he, hvalid, persistentAlways]
          · simp [Workflow.loopBody, hpg, hc, hfail, hcn, hpw0, hdv,
              Workflow.stopCurrentTask, Workflow.onTaskEnd,
              Workflow.isRunningUnsafe, OpRes.andThen, OpRes.skip, hst, hh,
              he, hvalid, persistentAlways]
      | some c' =>
        cases c' with
        | stopCmd =>
          by_cases hss : scriptTerm task.script = TermKind.stopSelfT <;>
            simp [Workflow.loopBody, Workflow.applyCmd, Workflow.stop,
            Workflow.stopImpl, hpg, hc, hfail, hpw0, Workflow.stopCurrentTask,
            Workflow.onTaskEnd, Workflow.isRunningUnsafe, OpRes.andThen,
            OpRes.skip, hst, hh, he, hvalid, persistentAlways, hss]
        | nextCmd =>
          by_cases hiter : (ts.length : Int) ≤ s.current_task_idx + 1 ∨
              s.current_task_idx = -1
          · cases lp with
            | false =>
              by_cases hss : scriptTerm task.script = TermKind.stopSelfT <;>
                simp [Workflow.loopBody, Workflow.applyCmd, Workflow.next,
                hpg, hc, hfail, hpw0, hiter, Workflow.nextImpl,
                Workflow.stopCurrentTask, Workflow.onTaskEnd,
                Workflow.onIterationEnd, Workflow.isRunningUnsafe,
                OpRes.andThen, OpRes.skip, hst, hh, he, hvalid,
                persistentAlways, hss]
            | true =>
              by_cases hss : scriptTerm task.script = TermKind.stopSelfT <;>
                simp [Workflow.loopBody, Workflow.applyCmd, Workflow.next,
                hpg, hc, hfail, hpw0, hiter, ht0, Workflow.nextImpl,
                Workflow.stopCurrentTask, Workflow.onTaskEnd,
                Workflow.onIterationEnd, Workflow.isRunningUnsafe,
                OpRes.andThen, OpRes.skip, hst, hh, he, hvalid,
                persistentAlways, hss]
          · have hvn : isValidTaskIndex ts.length (s.current_task_idx + 1)
                = true := by
              have := (by simpa [isValidTaskIndex] using hvalid :
                -(ts.length : Int) ≤ s.current_task_idx ∧
                  s.current_task_idx < (ts.length : Int))
              simp [isValidTaskIndex]
              omega
            obtain ⟨cur, hcur, -, -⟩ :=
              pyGet_of_valid ts (s.current_task_idx + 1) hvn
            by_cases hss : scriptTerm task.script = TermKind.stopSelfT <;>
              simp [Workflow.loopBody, Workflow.applyCmd, Workflow.next,
              hpg, hc, hfail, hpw0, hiter, hcur, Workflow.nextImpl,
              Workflow.stopCurrentTask, Workflow.onTaskEnd,
              Workflow.isRunningUnsafe, OpRes.andThen, OpRes.skip, hst, hh,
              he, hvalid, persistentAlways, hss]
        | jumpCmd j rt' =>
          by_cases hjv : isValidTaskIndex ts.length j = true
          · obtain ⟨tj, htj, -, -⟩ := pyGet_of_valid ts j hjv
            by_cases hss : scriptTerm task.script = TermKind.stopSelfT <;>
              simp [Workflow.loopBody, Workflow.applyCmd, Workflow.jump_to,
              hpg, hc, hfail, hpw0, hjv, htj, Workflow.jumpToImpl,
              Workflow.stopCurrentTask, Workflow.onTaskEnd,
              Workflow.isRunningUnsafe, OpRes.andThen, OpRes.skip, hst, hh,
              he, hvalid, persistentAlways, hss]
          · by_cases hss : scriptTerm task.script = TermKind.stopSelfT <;>
              simp [Workflow.loopBody, Workflow.applyCmd, Workflow.jump_to,
                hpg, hc, hfail, hpw0, hjv, Workflow.jumpToImpl,
                Workflow.stopImpl, Workflow.stopCurrentTask,
                Workflow.onTaskEnd, Workflow.isRunningUnsafe, OpRes.andThen,
                OpRes.skip, hst, hh, he, hvalid, persistentAlways, hss]

/-- The driver loop over tasks with no persistent writes — any external
control schedule allowed — preserves the context's persistent map and
shows it unchanged to every `on_task_start`. -/
theorem runLoop_pers (ts : List WTask) (lp : Bool)
    (hpw : ∀ t ∈ ts, scriptPW t.script = []) :
    ∀ (fuel : Nat) (sched : List (Option ExtCmd)) (s : EState)
      (c : WorkflowContext),
      (s.state = WorkflowState.RUNNING ∨ s.state = WorkflowState.STOPPING) →
      s.in_hook = false → s.ext_req = false → s.context = some c →
      persistentAlways c.persistent
          (Workflow.runLoop ts lp fuel sched s).trace = true ∧
      ∃ c2, (Workflow.runLoop ts lp fuel sched s).st.context = some c2 ∧
        c2.persistent = c.persistent := by
  intro fuel
  induction fuel with
  | zero =>
    intro sched s c h1 h2 h3 h4
    exact ⟨by simp [Workflow.runLoop, persistentAlways],
      ⟨c, by simp [Workflow.runLoop, h4]⟩⟩
  | succ n ih =>
    intro sched s c h1 h2 h3 h4
    rcases h1 with hrun | hstop
    · have hlb := loopBody_pers ts lp (sched.headD none) s c hpw hrun h2 h3 h4
      rcases hres : Workflow.loopBody ts lp (sched.headD none) s with ⟨r, ctl⟩
      rw [hres] at hlb
      rw [runLoop_succ_running ts lp n sched s hrun, hres]
      dsimp only
      cases hrerr : r.err with
      | some e => exact ⟨hlb.1, hlb.2.1⟩
      | none =>
        cases ctl with
        | brk f => exact ⟨hlb.1, hlb.2.1⟩
        | cont =>
          dsimp only
          obtain ⟨c2, hc2, hp2⟩ := hlb.2.1
          obtain ⟨he2, hst2, hh2⟩ := hlb.2.2 rfl
          have hrest := ih sched.tail r.st c2 hst2 hh2 he2 hc2
          constructor
          · rw [persistentAlways_append, hlb.1]
            rw [hp2] at hrest
            rw [hrest.1]
            rfl
          · obtain ⟨c3, hc3, hp3⟩ := hrest.2
            exact ⟨c3, hc3, by rw [hp3, hp2]⟩
    · have hnp : Workflow.isPausedUnsafe s = false := by
        simp [Workflow.isPausedUnsafe, hstop]
      have hr : Workflow.isRunningUnsafe s = false := by
        simp [Workflow.isRunningUnsafe, hstop]
      refine ⟨by simp [Workflow.runLoop, hnp, hr, persistentAlways],
        ⟨c, by simp [Workflow.runLoop, hnp, hr, h4]⟩⟩

/-- C6: at an iteration end with `loop=true`, `_on_iteration_end` fires
`on_iteration_end(i)` first, then resets the index to 0, increments
`iteration`, clears `transient` and fires `on_iteration_start(i+1)`
followed by `on_current_task_change(prev, tasks[0])`, leaving
`persistent` untouched; consequently, in a run with `loop=true`, no
conditionals and no external calls, `transient` is empty at every
`on_task_start` of a task at index 0 in an iteration later than the
first; and the driver loop never mutates `persistent` (over tasks that
write no persistent entries, under any external control schedule, the
persistent map is unchanged and is the one every `on_task_start`
observes). -/
theorem c6_iteration_wrap :
    (∀ (ts : List WTask) (t0 : WTask) (s : EState) (c : WorkflowContext),
      ts.head? = some t0 →
      (s.state = WorkflowState.RUNNING ∨ s.state = WorkflowState.PAUSED) →
      s.context = some c →
      (Workflow.onIterationEnd ts true s).evs =
        [Ev.iterEnd c.runtime.iteration,
         Ev.iterStart (c.runtime.iteration + 1),
         Ev.taskChange
           (if isValidTaskIndex ts.length s.current_task_idx then
             (pyGet ts s.current_task_idx).map (fun t => t.name)
            else none)
           (some t0.name)] ∧
      (Workflow.onIterationEnd ts true s).st.current_task_idx = 0 ∧
      (∃ c2, (Workflow.onIterationEnd ts true s).st.context = some c2 ∧
        c2.runtime.iteration = c.runtime.iteration + 1 ∧
        c2.transient = [] ∧ c2.persistent = c.persistent)) ∧
    (∀ (ts : List WTask) (fuel : Nat),
      (∀ t ∈ ts, t.condNext = none) →
      transientClearAtWrap
        (Workflow.run ts true [] fuel idleWorkflow).trace = true) ∧
    (∀ (ts : List WTask) (lp : Bool) (fuel : Nat)
      (sched : List (Option ExtCmd)) (s : EState) (c : WorkflowContext),
      (∀ t ∈ ts, scriptPW t.script = []) →
      (s.state = WorkflowState.RUNNING ∨ s.state = WorkflowState.STOPPING) →
      s.in_hook = false → s.ext_req = false → s.context = some c →
      persistentAlways c.persistent
          (Workflow.runLoop ts lp fuel sched s).trace = true ∧
      ∃ c2, (Workflow.runLoop ts lp fuel sched s).st.context = some c2 ∧
        c2.persistent = c.persistent) := by
  refine ⟨?_, ?_, ?_⟩
  · intro ts t0 s c ht0 hr hc
    have hrun := isRunningUnsafe_of_state s hr
    refine ⟨?_, ?_, ?_⟩ <;>
      simp [Workflow.onIterationEnd, hrun, hc, ht0]
  · intro ts fuel hcn
    have hng : ¬(WorkflowState.IDLE = WorkflowState.RUNNING ∨
        WorkflowState.IDLE = WorkflowState.PAUSED) := by simp
    have hng2 : ¬(WorkflowState.IDLE = WorkflowState.STOPPING) := by simp
    have hrun_eq : Workflow.run ts true [] fuel idleWorkflow =
        Workflow.runImpl ts true [] fuel
          ⟨.IDLE, 0, false, false, some freshContext, false⟩ := rfl
    rw [hrun_eq]
    unfold Workflow.runImpl
    norm_num [Workflow.isRunningUnsafe]
    simp only [if_neg hng, if_neg hng2]
    have hrt := runLoop_transient ts true hcn fuel
      ⟨.RUNNING, 0, false, false, some freshContext, false⟩ freshContext
      (Or.inl rfl) rfl rfl (by simp) (by simp [freshContext,
        WorkflowRuntime.start])
    rcases hres : Workflow.runLoop ts true fuel []
        ⟨.RUNNING, 0, false, false, some freshContext, false⟩
      with ⟨st, tr, lg, o⟩
    rw [hres] at hrt
    dsimp only at hrt ⊢
    cases o with
    | fuelOut => simpa [transientClearAtWrap] using hrt
    | blockedPaused => simpa [transientClearAtWrap] using hrt
    | completed f =>
      cases hctx : st.context with
      | none => simpa [transientClearAtWrap] using hrt
      | some ctxE =>
        dsimp only
        rw [show Ev.wfStart :: Ev.iterStart 0 ::
            (tr ++ [Ev.wfEnd ctxE.runtime.tasks_executed
              ctxE.runtime.iteration]) =
            ([Ev.wfStart, Ev.iterStart 0] ++ tr) ++
              [Ev.wfEnd ctxE.runtime.tasks_executed ctxE.runtime.iteration]
          by simp]
        rw [transientClearAtWrap_append, transientClearAtWrap_append, hrt]
        rfl
    | raisedErr e =>
      cases hctx : st.context with
      | none => simpa [transientClearAtWrap] using hrt
      | some ctxE =>
        dsimp only
        rw [show Ev.wfStart :: Ev.iterStart 0 ::
            (tr ++ [Ev.wfEnd ctxE.runtime.tasks_executed
              ctxE.runtime.iteration]) =
            ([Ev.wfStart, Ev.iterStart 0] ++ tr) ++
              [Ev.wfEnd ctxE.runtime.tasks_executed ctxE.runtime.iteration]
          by simp]
        rw [transientClearAtWrap_append, transientClearAtWrap_append, hrt]
        rfl
  · intro ts lp fuel sched s c hpw h1 h2 h3 h4
    exact runLoop_pers ts lp hpw fuel sched s c h1 h2 h3 h4

/-- Witness for C6 at concrete running workflows. -/
theorem c6_iteration_wrap_witness :
    ((Workflow.onIterationEnd [noOpTask ("A"), noOpTask ("B")] true
        runningDemo).evs =
      [Ev.iterEnd freshContext.runtime.iteration,
       Ev.iterStart (freshContext.runtime.iteration + 1),
       Ev.taskChange
         (if isValidTaskIndex
             ([noOpTask ("A"), noOpTask ("B")] : List WTask).length
             runningDemo.current_task_idx then
           (pyGet [noOpTask ("A"), noOpTask ("B")]
             runningDemo.current_task_idx).map (fun t => t.name)
          else none)
         (some (noOpTask ("A")).name)] ∧
      (Workflow.onIterationEnd [noOpTask ("A"), noOpTask ("B")] true
        runningDemo).st.current_task_idx = 0 ∧
      (∃ c2, (Workflow.onIterationEnd [noOpTask ("A"), noOpTask ("B")] true
          runningDemo).st.context = some c2 ∧
        c2.runtime.iteration = freshContext.runtime.iteration + 1 ∧
        c2.transient = [] ∧ c2.persistent = freshContext.persistent)) ∧
    transientClearAtWrap
      (Workflow.run [noOpTask ("A")] true [] 3 idleWorkflow).trace = true ∧
    (persistentAlways freshContext.persistent
        (Workflow.runLoop [noOpTask ("A")] true 3 [] runningDemo).trace
        = true ∧
     ∃ c2, (Workflow.runLoop [noOpTask ("A")] true 3 []
        runningDemo).st.context = some c2 ∧
       c2.persistent = freshContext.persistent) :=
  ⟨c6_iteration_wrap.1 [noOpTask ("A"), noOpTask ("B")] (noOpTask ("A"))
      runningDemo freshContext rfl (Or.inl rfl) rfl,
   c6_iteration_wrap.2.1 [noOpTask ("A")] 3 (by decide),
   c6_iteration_wrap.2.2 [noOpTask ("A")] true 3 [] runningDemo freshContext
      (by decide) (Or.inl rfl) rfl rfl rfl⟩

/-- Witness for C1's general clause at the three-NoOp workflow. -/
theorem c1_linear_completion_witness :
    taskStartNames
        (Workflow.run [noOpTask ("A"), noOpTask ("B"), noOpTask ("C")]
          false [] 4 idleWorkflow).trace =
      ([noOpTask ("A"), noOpTask ("B"), noOpTask ("C")] : List WTask).map
        (fun t => t.name) :=
  c1_linear_completion.2 [noOpTask ("A"), noOpTask ("B"), noOpTask ("C")] 4
    (by decide) (by decide)
